import Mathlib

/-!
Shallow embedding of the game-session state machine in
`src/server/core/game.ts`.  The file holds two variants of the game:

* `HO` — the hidden-object ("find the impostors in the crowd") variant,
  the first document in `game.ts`;
* `SD` — the social-deduction (task / vote / eliminate) variant,
  the second document in `game.ts`.

JavaScript objects (`Record<string, Player>`) are modelled as insertion
ordered association lists; the Redis read-modify-write cycle is modelled
by pure functions from the loaded state to the stored state.  Every
operation returns the state as it is left in the store together with the
operation's response: a `false`/`none` response means the TS function
returned `null` (a rejection) and did not call `updateGame`, so the
stored state component equals the input state on those paths, exactly as
in the source.  `Date.now()` and `Math.random()` are passed in as
explicit arguments.
-/

namespace Spec2Proof

inductive Phase
  | waiting
  | playing
  | discussion
  | voting
  | ended
deriving DecidableEq, Repr

/-- Lookup in an insertion-ordered association list, as `obj[key]`. -/
def lookupP {α : Type} (ps : List (String × α)) (pid : String) : Option α :=
  (ps.find? (fun e => e.1 == pid)).map (fun e => e.2)

/-- In-place update of an existing key, as `obj[key] = v` on a present key:
the first entry with the key is replaced, its position kept. -/
def setP {α : Type} : List (String × α) → String → α → List (String × α)
  | [], _, _ => []
  | e :: rest, pid, v =>
    if e.1 == pid then (e.1, v) :: rest else e :: setP rest pid v

namespace SD

inductive Role
  | crewmate
  | impostor
deriving DecidableEq, Repr

inductive Status
  | alive
  | dead
  | disconnected
deriving DecidableEq, Repr

inductive Winner
  | crewmates
  | impostors
deriving DecidableEq, Repr

structure Player where
  id : String
  username : String
  role : Role
  status : Status
  posX : ℚ
  posY : ℚ
  tasksCompleted : Nat
  totalTasks : Nat
  hasVoted : Bool
  votedFor : Option String
deriving DecidableEq, Repr

structure GameState where
  id : String
  phase : Phase
  players : List (String × Player)
  host : String
  winner : Option Winner := none
  discussionTimeLeft : Option Nat := none
  votingTimeLeft : Option Nat := none
  meetingCaller : Option String := none
  eliminatedPlayer : Option String := none
  gameStartTime : Option Nat := none
deriving DecidableEq, Repr

def DISCUSSION_TIME : Nat := 45
def VOTING_TIME : Nat := 30
def MIN_PLAYERS : Nat := 4
def MAX_PLAYERS : Nat := 10

/-- `createGame` of the social-deduction variant. -/
def createGame (postId hostId hostUsername : String) : GameState :=
  { id := postId
    phase := Phase.waiting
    players := [(hostId,
      { id := hostId, username := hostUsername, role := Role.crewmate,
        status := Status.alive, posX := 50, posY := 50,
        tasksCompleted := 0, totalTasks := 3, hasVoted := false,
        votedFor := none })]
    host := hostId }

/-- `joinGame` of the social-deduction variant.  The random spawn position is
injected as `px`, `py`.  The `Bool` is `false` exactly when the TS code
returns `null`. -/
def joinGame (s : GameState) (playerId username : String) (px py : ℚ) :
    GameState × Bool :=
  if s.phase ≠ Phase.waiting then (s, false)
  else if MAX_PLAYERS ≤ s.players.length then (s, false)
  else
    match lookupP s.players playerId with
    | some _ => (s, true)
    | none =>
        let p : Player :=
          { id := playerId, username := username, role := Role.crewmate,
            status := Status.alive, posX := px, posY := py,
            tasksCompleted := 0, totalTasks := 3, hasVoted := false,
            votedFor := none }
        ({ s with players := s.players ++ [(playerId, p)] }, true)

/-- `startGame` of the social-deduction variant.  The randomly shuffled list
of player ids is injected as `shuffledIds`. -/
def startGame (s : GameState) (playerId : String) (shuffledIds : List String)
    (now : Nat) : GameState × Bool :=
  if s.host ≠ playerId then (s, false)
  else if s.phase ≠ Phase.waiting then (s, false)
  else if s.players.length < MIN_PLAYERS then (s, false)
  else
    let impostorCount := max 1 (s.players.length / 4)
    let impostorIds := shuffledIds.take impostorCount
    let players' := s.players.map (fun e => (e.1,
      { e.2 with
          role := if impostorIds.contains e.1 then Role.impostor
                  else Role.crewmate,
          hasVoted := false, votedFor := none }))
    ({ s with players := players'
              phase := Phase.playing
              gameStartTime := some now }, true)

/-- `completeTask` of the social-deduction variant; the `Bool` is the
`taskCompleted` field of the response. -/
def completeTask (s : GameState) (playerId : String) : GameState × Bool :=
  match lookupP s.players playerId with
  | none => (s, false)
  | some p =>
      if p.status ≠ Status.alive ∨ p.role ≠ Role.crewmate then (s, false)
      else
        let p' := if p.tasksCompleted < p.totalTasks then
            { p with tasksCompleted := p.tasksCompleted + 1 } else p
        let s1 := { s with players := setP s.players playerId p' }
        let crew := (s1.players.map (fun e => e.2)).filter
          (fun q => q.role == Role.crewmate && q.status == Status.alive)
        let total : Nat := (crew.map (fun q => q.totalTasks)).sum
        let done : Nat := (crew.map (fun q => q.tasksCompleted)).sum
        if total ≤ done then
          ({ s1 with phase := Phase.ended, winner := some Winner.crewmates },
            true)
        else (s1, true)

/-- Reset of every player's vote, `hasVoted = false; votedFor = undefined`. -/
def resetVotes (ps : List (String × Player)) : List (String × Player) :=
  ps.map (fun e => (e.1, { e.2 with hasVoted := false, votedFor := none }))

/-- `callEmergencyMeeting` of the social-deduction variant. -/
def callEmergencyMeeting (s : GameState) (playerId : String) :
    GameState × Bool :=
  match lookupP s.players playerId with
  | none => (s, false)
  | some p =>
      if p.status ≠ Status.alive ∨ s.phase ≠ Phase.playing then (s, false)
      else
        ({ s with phase := Phase.discussion
                  discussionTimeLeft := some DISCUSSION_TIME
                  meetingCaller := some playerId
                  players := resetVotes s.players }, true)

/-- `eliminatePlayer` of the social-deduction variant. -/
def eliminatePlayer (s : GameState) (targetId impostorId : String) :
    GameState × Bool :=
  match lookupP s.players impostorId, lookupP s.players targetId with
  | some imp, some tgt =>
      if imp.role ≠ Role.impostor ∨ imp.status ≠ Status.alive ∨
          tgt.status ≠ Status.alive then (s, false)
      else
        let s1 := { s with
                    players := setP s.players targetId ({ tgt with status := Status.dead })
                    eliminatedPlayer := some targetId }
        let alive : List Player := (s1.players.map (fun e => e.2)).filter
          (fun p => p.status == Status.alive)
        let aliveImp : List Player := alive.filter (fun p => p.role == Role.impostor)
        let aliveCrew : List Player := alive.filter (fun p => p.role == Role.crewmate)
        if aliveCrew.length ≤ aliveImp.length then
          ({ s1 with phase := Phase.ended, winner := some Winner.impostors },
            true)
        else
          ({ s1 with phase := Phase.discussion
                     discussionTimeLeft := some DISCUSSION_TIME
                     meetingCaller := some impostorId }, true)
  | _, _ => (s, false)

/-- A vote is effective when `player.votedFor` is truthy: present and not the
empty string.  `none` is a skip. -/
def effVote (p : Player) : Option String :=
  match p.votedFor with
  | none => none
  | some t => if t == "" then none else some t

/-- `votes[t] = (votes[t] || 0) + 1` on a record with insertion-ordered keys. -/
def bump : List (String × Nat) → String → List (String × Nat)
  | [], t => [(t, 1)]
  | e :: rest, t =>
      if e.1 == t then (e.1, e.2 + 1) :: rest else e :: bump rest t

/-- One step of the vote-counting loop over the alive players. -/
def voteStep (acc : List (String × Nat) × Nat) (p : Player) :
    List (String × Nat) × Nat :=
  match effVote p with
  | some t => (bump acc.1 t, acc.2)
  | none => (acc.1, acc.2 + 1)

/-- Per-target vote record and skip count, built over the alive players. -/
def buildVotes (alive : List Player) : List (String × Nat) × Nat :=
  alive.foldl voteStep ([], 0)

/-- One step of the `Object.entries(votes).forEach` max-scan; the accumulator
is `(mostVoted, maxVotes, tie)`. -/
def mostStep (acc : String × Nat × Bool) (e : String × Nat) :
    String × Nat × Bool :=
  if acc.2.1 < e.2 then (e.1, e.2, false)
  else if e.2 == acc.2.1 && decide (0 < acc.2.1) then (acc.1, acc.2.1, true)
  else acc

/-- The `mostVoted` / `maxVotes` / `tie` scan over the vote record. -/
def findMost (entries : List (String × Nat)) : String × Nat × Bool :=
  entries.foldl mostStep ("", 0, false)

/-- `Object.values(gameState.players).filter(p => p.status === 'alive')`. -/
def alivePlayers (s : GameState) : List Player :=
  (s.players.map (fun e => e.2)).filter (fun p => p.status == Status.alive)

/-- The two mutations `voter.hasVoted = true; voter.votedFor = targetId`. -/
def recordVote (s : GameState) (voterId : String) (voter : Player)
    (targetId : Option String) : GameState :=
  let voter' : Player := { voter with hasVoted := true, votedFor := targetId }
  { s with players := setP s.players voterId voter' }

/-- The elimination step of the tally: count votes and, when there is a
unique most-voted candidate with strictly more votes than skips, mark that
player dead. -/
def tallyEliminate (s1 : GameState) : GameState :=
  let alive := alivePlayers s1
  let vs := buildVotes alive
  let m := findMost vs.1
  if m.1 ≠ "" ∧ m.2.2 = false ∧ vs.2 < m.2.1 then
    match lookupP s1.players m.1 with
    | some ep =>
        { s1 with
          players := setP s1.players m.1 ({ ep with status := Status.dead })
          eliminatedPlayer := some m.1 }
    | none => s1
  else s1

/-- The tally block of `castVote`: count votes, possibly eliminate the
most-voted player, check win conditions, reset all votes. -/
def runTally (s1 : GameState) : GameState :=
  let s2 := tallyEliminate s1
  let remaining := alivePlayers s2
  let remImp := remaining.filter (fun p => p.role == Role.impostor)
  let remCrew := remaining.filter (fun p => p.role == Role.crewmate)
  let s3 :=
    if remImp.length = 0 then
      { s2 with phase := Phase.ended, winner := some Winner.crewmates }
    else if remCrew.length ≤ remImp.length then
      { s2 with phase := Phase.ended, winner := some Winner.impostors }
    else { s2 with phase := Phase.playing }
  { s3 with players := resetVotes s3.players }

/-- `castVote` of the social-deduction variant; `targetId = none` is a skip
vote. -/
def castVote (s : GameState) (voterId : String) (targetId : Option String) :
    GameState × Bool :=
  match lookupP s.players voterId with
  | none => (s, false)
  | some voter =>
      if voter.status ≠ Status.alive ∨ s.phase ≠ Phase.voting then (s, false)
      else
        let s1 := recordVote s voterId voter targetId
        let alive := alivePlayers s1
        if (alive.filter (fun p => p.hasVoted)).length = alive.length then
          (runTally s1, true)
        else (s1, true)

end SD

namespace HO

inductive Difficulty
  | easy
  | medium
  | hard
deriving DecidableEq, Repr

structure Impostor where
  id : String
  x : ℚ
  y : ℚ
  width : ℚ
  height : ℚ
  difficulty : Difficulty
  found : Bool
  foundBy : Option String := none
  foundAt : Option Nat := none
deriving DecidableEq, Repr

structure Player where
  id : String
  username : String
  score : Nat
  foundImpostors : List String
  timeStarted : Option Nat := none
  timeCompleted : Option Nat := none
deriving DecidableEq, Repr

structure LBEntry where
  playerId : String
  username : String
  score : Nat
  timeCompleted : Option Nat
deriving DecidableEq, Repr

structure GameState where
  id : String
  phase : Phase
  players : List (String × Player)
  impostors : List Impostor
  host : String
  timeLimit : Nat
  leaderboard : List LBEntry
  gameStartTime : Option Nat := none
  gameEndTime : Option Nat := none
  timeLeft : Option Nat := none
  winner : Option String := none
deriving DecidableEq, Repr

def TIME_LIMIT : Nat := 300
def MIN_PLAYERS : Nat := 1
def MAX_PLAYERS : Nat := 20

/-- The fixed `IMPOSTOR_LOCATIONS` table: `(x, y, width, height, difficulty)`. -/
def IMPOSTOR_LOCATIONS : List (ℚ × ℚ × ℚ × ℚ × Difficulty) :=
  [ (15, 25, 8, 12, Difficulty.easy),
    (75, 40, 7, 11, Difficulty.easy),
    (45, 70, 8, 13, Difficulty.easy),
    (30, 15, 5, 8, Difficulty.medium),
    (85, 60, 6, 9, Difficulty.medium),
    (20, 80, 5, 7, Difficulty.medium),
    (65, 20, 6, 8, Difficulty.medium),
    (55, 35, 3, 5, Difficulty.hard),
    (10, 55, 4, 6, Difficulty.hard),
    (90, 25, 3, 4, Difficulty.hard),
    (40, 85, 4, 5, Difficulty.hard),
    (70, 75, 3, 5, Difficulty.hard) ]

/-- `createGame` of the hidden-object variant. -/
def createGame (postId hostId hostUsername : String) : GameState :=
  { id := postId
    phase := Phase.waiting
    players := [(hostId,
      { id := hostId, username := hostUsername, score := 0,
        foundImpostors := [] })]
    impostors :=
      ((List.range IMPOSTOR_LOCATIONS.length).zip IMPOSTOR_LOCATIONS).map
        (fun e =>
          { id := "impostor_" ++ toString e.1,
            x := e.2.1, y := e.2.2.1, width := e.2.2.2.1,
            height := e.2.2.2.2.1, difficulty := e.2.2.2.2.2,
            found := false })
    host := hostId
    timeLimit := TIME_LIMIT
    leaderboard := [] }

/-- `joinGame` of the hidden-object variant: a full-session check, an
already-present check, and no phase check at all. -/
def joinGame (s : GameState) (playerId username : String) (now : Nat) :
    GameState × Bool :=
  if MAX_PLAYERS ≤ s.players.length then (s, false)
  else
    match lookupP s.players playerId with
    | some _ => (s, true)
    | none =>
        let p : Player :=
          { id := playerId, username := username, score := 0,
            foundImpostors := [],
            timeStarted := if s.phase = Phase.playing then some now else none }
        ({ s with players := s.players ++ [(playerId, p)] }, true)

/-- `startGame` of the hidden-object variant. -/
def startGame (s : GameState) (playerId : String) (now : Nat) :
    GameState × Bool :=
  if s.host ≠ playerId then (s, false)
  else if s.phase ≠ Phase.waiting then (s, false)
  else if s.players.length < MIN_PLAYERS then (s, false)
  else
    ({ s with phase := Phase.playing
              gameStartTime := some now
              timeLeft := some TIME_LIMIT
              players := s.players.map
                (fun e => (e.1, { e.2 with timeStarted := some now })) }, true)

/-- The axis-aligned closed-box hit test of `findImpostor`. -/
def inBox (u v : ℚ) (t : Impostor) : Bool :=
  decide (t.x ≤ u) && decide (u ≤ t.x + t.width) &&
  decide (t.y ≤ v) && decide (v ≤ t.y + t.height)

/-- The predicate of the `impostors.find(...)` scan: not yet found and the
click is inside the box. -/
def hitTest (u v : ℚ) (t : Impostor) : Bool :=
  !t.found && inBox u v t

def basePoints : Difficulty → Nat
  | Difficulty.easy => 10
  | Difficulty.medium => 25
  | Difficulty.hard => 50

/-- `Math.max(0, Math.floor((TIME_LIMIT - timeElapsed) / 10))` with
`timeElapsed = (now - (timeStarted || now)) / 1000`. -/
def timeBonus (pl : Player) (now : Nat) : Nat :=
  let elapsed : ℚ := ((now : ℚ) - ((pl.timeStarted.getD now : Nat) : ℚ)) / 1000
  (max 0 (Int.floor (((TIME_LIMIT : ℚ) - elapsed) / 10))).toNat

/-- The mutations applied to the matched impostor object. -/
def markFound (t : Impostor) (playerId : String) (now : Nat) : Impostor :=
  { t with found := true, foundBy := some playerId, foundAt := some now }

/-- `impostors.find(...)` together with the in-place mutation of the matched
element: returns the updated array and the (mutated) matched impostor. -/
def markFirst (playerId : String) (now : Nat) (u v : ℚ) :
    List Impostor → Option (List Impostor × Impostor)
  | [] => none
  | t :: rest =>
      if hitTest u v t then
        some (markFound t playerId now :: rest, markFound t playerId now)
      else
        match markFirst playerId now u v rest with
        | some (rest', m) => some (t :: rest', m)
        | none => none

/-- The leaderboard entry built from a player; `timeCompleted` is carried
over only when truthy (present and nonzero). -/
def toEntry (p : Player) : LBEntry :=
  { playerId := p.id, username := p.username, score := p.score,
    timeCompleted :=
      match p.timeCompleted with
      | some t => if t = 0 then none else some t
      | none => none }

/-- The JS comparator of `updateLeaderboard`: score descending, then earlier
completion time first when both entries carry a truthy time, else equal. -/
def lbCmp (a b : LBEntry) : Int :=
  if a.score ≠ b.score then (b.score : Int) - (a.score : Int)
  else
    match a.timeCompleted, b.timeCompleted with
    | some ta, some tb =>
        if ta ≠ 0 ∧ tb ≠ 0 then (ta : Int) - (tb : Int) else 0
    | _, _ => 0

/-- Stable insertion w.r.t. the comparator: the new element goes after every
element comparing ≤ 0 against it, as a stable `Array.prototype.sort` does. -/
def insertLB (a : LBEntry) : List LBEntry → List LBEntry
  | [] => [a]
  | b :: rest => if lbCmp b a ≤ 0 then b :: insertLB a rest else a :: b :: rest

/-- Stable sort by the comparator, processing entries in original order. -/
def sortLB (l : List LBEntry) : List LBEntry :=
  l.foldl (fun acc a => insertLB a acc) []

/-- `updateLeaderboard` on the players map. -/
def buildLeaderboard (players : List (String × Player)) : List LBEntry :=
  sortLB ((players.map (fun e => e.2)).map toEntry)

structure FindResult where
  state : GameState
  found : Bool
  impostor : Option Impostor
  score : Nat
deriving DecidableEq, Repr

/-- `findImpostor` of the hidden-object variant. -/
def findImpostor (s : GameState) (playerId : String) (u v : ℚ) (now : Nat) :
    FindResult :=
  match lookupP s.players playerId with
  | none => ⟨s, false, none, 0⟩
  | some pl =>
      if s.phase ≠ Phase.playing then ⟨s, false, none, pl.score⟩
      else
        match markFirst playerId now u v s.impostors with
        | none => ⟨s, false, none, pl.score⟩
        | some (imps', m) =>
            let pl1 := { pl with
              foundImpostors := pl.foundImpostors ++ [m.id],
              score := pl.score + basePoints m.difficulty + timeBonus pl now }
            let allFound := imps'.all (fun t => t.found)
            let playerFoundAll := pl1.foundImpostors.length = imps'.length
            if allFound = true ∨ playerFoundAll then
              let pl2 := { pl1 with timeCompleted := some now }
              let s1 := { s with impostors := imps'
                                 phase := Phase.ended
                                 gameEndTime := some now
                                 winner := some playerId
                                 players := setP s.players playerId pl2 }
              ⟨{ s1 with leaderboard := buildLeaderboard s1.players },
                true, some m, pl2.score⟩
            else
              ⟨{ s with impostors := imps'
                        players := setP s.players playerId pl1 },
                true, some m, pl1.score⟩

end HO

/-! ## Helper lemmas on association lists -/

theorem lookupP_nil {α : Type} (pid : String) :
    lookupP ([] : List (String × α)) pid = none := rfl

theorem lookupP_cons {α : Type} (e : String × α) (rest : List (String × α))
    (pid : String) :
    lookupP (e :: rest) pid =
      if e.1 = pid then some e.2 else lookupP rest pid := by
  by_cases h : e.1 = pid
  · simp [lookupP, List.find?, h]
  · simp only [lookupP, List.find?]
    have hb : (e.1 == pid) = false := by simp [h]
    simp [hb, h]

theorem lookupP_setP {α : Type} (ps : List (String × α)) (k : String) (v : α)
    (pid : String) :
    lookupP (setP ps k v) pid =
      if pid = k then (lookupP ps k).map (fun _ => v) else lookupP ps pid := by
  induction ps with
  | nil => simp [lookupP, setP]
  | cons e rest ih =>
      simp only [setP]
      by_cases h1 : e.1 = k
      · rw [if_pos (by simp [h1])]
        subst h1
        by_cases h2 : pid = e.1
        · subst h2
          simp [lookupP_cons]
        · have h2' : ¬(e.1 = pid) := fun h => h2 h.symm
          simp [lookupP_cons, h2, h2']
      · rw [if_neg (by simp [h1])]
        by_cases h2 : e.1 = pid
        · subst h2
          rw [lookupP_cons, if_pos rfl, if_neg h1, lookupP_cons, if_pos rfl]
        · simp only [lookupP_cons, h2, h1, if_false, ih]

theorem lookupP_append_right {α : Type} (ps : List (String × α))
    (pid : String) (v : α) (h : lookupP ps pid = none) :
    lookupP (ps ++ [(pid, v)]) pid = some v := by
  induction ps with
  | nil => simp [lookupP, List.find?]
  | cons e rest ih =>
      simp only [lookupP, List.find?, List.cons_append] at *
      by_cases h2 : e.1 == pid
      · simp [h2] at h
      · simp only [h2] at *
        simp only [Bool.false_eq_true, if_false] at *
        exact ih h

/-! ## Concrete sessions used as inputs of counterexamples and witnesses -/

/-- Short builder for a social-deduction player. -/
def sdP (pid : String) (r : SD.Role) (st : SD.Status) (tc tt : Nat)
    (hv : Bool) (vf : Option String) : SD.Player :=
  { id := pid, username := pid, role := r, status := st, posX := 0, posY := 0,
    tasksCompleted := tc, totalTasks := tt, hasVoted := hv, votedFor := vf }

/-- A social-deduction session that has already ended with the impostors as
winner, while one impostor and one crewmate (two tasks done out of three)
are still alive. -/
def sdEnded : SD.GameState :=
  { id := "g", phase := Phase.ended, host := "i1",
    winner := some SD.Winner.impostors,
    players := [
      ("i1", sdP "i1" SD.Role.impostor SD.Status.alive 0 3 false none),
      ("c1", sdP "c1" SD.Role.crewmate SD.Status.alive 2 3 false none),
      ("c2", sdP "c2" SD.Role.crewmate SD.Status.dead 0 3 false none),
      ("c3", sdP "c3" SD.Role.crewmate SD.Status.dead 0 3 false none)] }

/-- A small social-deduction session in the playing phase. -/
def sdPlaying : SD.GameState :=
  { id := "g", phase := Phase.playing, host := "i1",
    players := [
      ("i1", sdP "i1" SD.Role.impostor SD.Status.alive 0 3 false none),
      ("c1", sdP "c1" SD.Role.crewmate SD.Status.alive 3 3 false none),
      ("c2", sdP "c2" SD.Role.crewmate SD.Status.alive 0 3 false none)] }

/-! ## C1 -/

/-- C1 (code bug): the spec requires every mutating operation on an `ended`
session to be a no-op, but `completeTask` has no phase guard: on the ended
session `sdEnded` (winner already `impostors`) it still increments the alive
crewmate's task counter, reports `taskCompleted = true`, and — since that
completes all alive crewmates' tasks — overwrites `winner` with `crewmates`,
transitioning to `ended` a second time. -/
theorem completeTask_mutates_ended_session :
    sdEnded.phase = Phase.ended ∧
    sdEnded.winner = some SD.Winner.impostors ∧
    (SD.completeTask sdEnded "c1").2 = true ∧
    (lookupP (SD.completeTask sdEnded "c1").1.players "c1").map
      SD.Player.tasksCompleted = some 3 ∧
    (lookupP sdEnded.players "c1").map SD.Player.tasksCompleted = some 2 ∧
    (SD.completeTask sdEnded "c1").1.winner = some SD.Winner.crewmates := by
  decide

/-! ## C10 -/

/-- C10: for an existing, alive crewmate, `completeTask` reports
`taskCompleted = true` even when the counter is already at `totalTasks`
(in which case it is not incremented), and no call pushes any player's
`tasksCompleted` above `totalTasks`. -/
theorem completeTask_counter_cap (s : SD.GameState) (pid : String)
    (p : SD.Player) (hp : lookupP s.players pid = some p)
    (halive : p.status = SD.Status.alive)
    (hcrew : p.role = SD.Role.crewmate) :
    (SD.completeTask s pid).2 = true ∧
    (lookupP (SD.completeTask s pid).1.players pid).map
        SD.Player.tasksCompleted =
      some (if p.tasksCompleted < p.totalTasks then p.tasksCompleted + 1
            else p.tasksCompleted) ∧
    (∀ pid' q q', lookupP s.players pid' = some q →
      lookupP (SD.completeTask s pid).1.players pid' = some q' →
      q.tasksCompleted ≤ q.totalTasks → q'.tasksCompleted ≤ q'.totalTasks) := by
  have hplayers : (SD.completeTask s pid).1.players =
      setP s.players pid
        (if p.tasksCompleted < p.totalTasks then
          { p with tasksCompleted := p.tasksCompleted + 1 } else p) ∧
      (SD.completeTask s pid).2 = true := by
    unfold SD.completeTask
    rw [hp]
    try dsimp only
    rw [if_neg (by simp [halive, hcrew])]
    try dsimp only
    split <;> split <;> exact ⟨rfl, rfl⟩
  refine ⟨hplayers.2, ?_, ?_⟩
  · rw [hplayers.1, lookupP_setP, if_pos rfl, hp]
    simp only [Option.map_some']
    split <;> rfl
  · intro pid' q q' hq hq' hle
    rw [hplayers.1, lookupP_setP] at hq'
    by_cases hpp : pid' = pid
    · subst hpp
      rw [hq] at hp
      cases hp
      rw [if_pos rfl, hq] at hq'
      simp only [Option.map_some', Option.some.injEq] at hq'
      subst hq'
      split
      · dsimp only
        omega
      · exact hle
    · rw [if_neg hpp, hq] at hq'
      simp only [Option.map_some', Option.some.injEq] at hq'
      subst hq'
      exact hle

/-- Witness for C10 at the concrete session `sdPlaying`: the crewmate `c1`
already has all three tasks completed, the call still reports success and
the counter stays at three. -/
theorem completeTask_counter_cap_witness :
    (SD.completeTask sdPlaying "c1").2 = true ∧
    (lookupP (SD.completeTask sdPlaying "c1").1.players "c1").map
      SD.Player.tasksCompleted = some 3 := by
  have h := completeTask_counter_cap sdPlaying "c1"
    (sdP "c1" SD.Role.crewmate SD.Status.alive 3 3 false none)
    (by decide) (by decide) (by decide)
  exact ⟨h.1, by rw [h.2.1]; rfl⟩

/-! ## C9 -/

/-- C9: whenever an operation rejects (returns `null` in the source, or a
`taskCompleted = false` / `found = false` no-op response), the session it
leaves in the store is exactly the session it loaded: every precondition is
checked before any mutation. -/
theorem rejections_leave_session_unchanged :
    (∀ (s : HO.GameState) pid u now,
      (HO.joinGame s pid u now).2 = false → (HO.joinGame s pid u now).1 = s) ∧
    (∀ (s : HO.GameState) pid now,
      (HO.startGame s pid now).2 = false → (HO.startGame s pid now).1 = s) ∧
    (∀ (s : HO.GameState) pid x y now,
      (HO.findImpostor s pid x y now).found = false →
        (HO.findImpostor s pid x y now).state = s) ∧
    (∀ (s : SD.GameState) pid u px py,
      (SD.joinGame s pid u px py).2 = false →
        (SD.joinGame s pid u px py).1 = s) ∧
    (∀ (s : SD.GameState) pid sh now,
      (SD.startGame s pid sh now).2 = false →
        (SD.startGame s pid sh now).1 = s) ∧
    (∀ (s : SD.GameState) pid,
      (SD.completeTask s pid).2 = false → (SD.completeTask s pid).1 = s) ∧
    (∀ (s : SD.GameState) pid,
      (SD.callEmergencyMeeting s pid).2 = false →
        (SD.callEmergencyMeeting s pid).1 = s) ∧
    (∀ (s : SD.GameState) t i,
      (SD.eliminatePlayer s t i).2 = false →
        (SD.eliminatePlayer s t i).1 = s) ∧
    (∀ (s : SD.GameState) v t,
      (SD.castVote s v t).2 = false → (SD.castVote s v t).1 = s) := by
  refine ⟨?_, ?_, ?_, ?_, ?_, ?_, ?_, ?_, ?_⟩
  · intro s pid u now
    unfold HO.joinGame
    split
    · simp
    · split <;> simp
  · intro s pid now
    unfold HO.startGame
    split
    · simp
    · split
      · simp
      · split <;> simp
  · intro s pid x y now
    unfold HO.findImpostor
    split
    · simp
    · split
      · simp
      · split
        · simp
        · intro h
          dsimp only at h
          split at h <;> simp at h
  · intro s pid u px py
    unfold SD.joinGame
    split
    · simp
    · split
      · simp
      · split <;> simp
  · intro s pid sh now
    unfold SD.startGame
    split
    · simp
    · split
      · simp
      · split <;> simp
  · intro s pid
    unfold SD.completeTask
    split
    · simp
    · split
      · simp
      · intro h
        dsimp only at h
        split at h <;> split at h <;> simp at h
  · intro s pid
    unfold SD.callEmergencyMeeting
    split
    · simp
    · split <;> simp
  · intro s t i
    unfold SD.eliminatePlayer
    split
    · split
      · simp
      · intro h
        dsimp only at h
        split at h <;> simp at h
    · simp
  · intro s v t
    unfold SD.castVote
    split
    · simp
    · split
      · simp
      · intro h
        dsimp only at h
        split at h <;> simp at h

/-- Witness for C9: a vote cast on a session whose phase is `ended` (not
`voting`) is rejected and the stored session is untouched. -/
theorem rejections_leave_session_unchanged_witness :
    (SD.castVote sdEnded "c1" (some "i1")).1 = sdEnded :=
  rejections_leave_session_unchanged.2.2.2.2.2.2.2.2 sdEnded "c1" (some "i1")
    (by decide)

/-! ## C4 -/

/-- A small social-deduction session still in the waiting phase. -/
def sdWaiting : SD.GameState :=
  { id := "g", phase := Phase.waiting, host := "p0",
    players := [
      ("p0", sdP "p0" SD.Role.crewmate SD.Status.alive 0 3 false none),
      ("p1", sdP "p1" SD.Role.crewmate SD.Status.alive 0 3 false none)] }

/-- A social-deduction session in the waiting phase with exactly
`MAX_PLAYERS = 10` players, among them `p0`. -/
def sdFull : SD.GameState :=
  { id := "g", phase := Phase.waiting, host := "p0",
    players := [
      ("p0", sdP "p0" SD.Role.crewmate SD.Status.alive 0 3 false none),
      ("p1", sdP "p1" SD.Role.crewmate SD.Status.alive 0 3 false none),
      ("p2", sdP "p2" SD.Role.crewmate SD.Status.alive 0 3 false none),
      ("p3", sdP "p3" SD.Role.crewmate SD.Status.alive 0 3 false none),
      ("p4", sdP "p4" SD.Role.crewmate SD.Status.alive 0 3 false none),
      ("p5", sdP "p5" SD.Role.crewmate SD.Status.alive 0 3 false none),
      ("p6", sdP "p6" SD.Role.crewmate SD.Status.alive 0 3 false none),
      ("p7", sdP "p7" SD.Role.crewmate SD.Status.alive 0 3 false none),
      ("p8", sdP "p8" SD.Role.crewmate SD.Status.alive 0 3 false none),
      ("p9", sdP "p9" SD.Role.crewmate SD.Status.alive 0 3 false none)] }

/-- Counterexample to C4: the session-full check runs before the
already-present check, so a player who is already in a session holding
`MAX_PLAYERS` players is rejected (the source returns `null`) instead of
getting the unchanged session back. -/
theorem join_full_rejects_present_cex :
    sdFull.phase = Phase.waiting ∧
    sdFull.players.length = SD.MAX_PLAYERS ∧
    lookupP sdFull.players "p0" ≠ none ∧
    SD.joinGame sdFull "p0" "p0" 0 0 = (sdFull, false) := by
  decide

/-- C4 (amended): joining with an already-present player id returns the
session unchanged only while the session is below its cap (and, in the
social-deduction variant, still in the waiting phase); when the player count
has reached the cap (10 social-deduction, 20 hidden-object) every join —
including one by an already-present id — is rejected with the session left
unchanged. -/
theorem join_idempotent_below_cap :
    (∀ (s : SD.GameState) pid u px py (p : SD.Player),
      s.phase = Phase.waiting → s.players.length < SD.MAX_PLAYERS →
      lookupP s.players pid = some p →
      SD.joinGame s pid u px py = (s, true)) ∧
    (∀ (s : SD.GameState) pid u px py,
      SD.MAX_PLAYERS ≤ s.players.length →
      SD.joinGame s pid u px py = (s, false)) ∧
    (∀ (s : HO.GameState) pid u now (p : HO.Player),
      s.players.length < HO.MAX_PLAYERS →
      lookupP s.players pid = some p →
      HO.joinGame s pid u now = (s, true)) ∧
    (∀ (s : HO.GameState) pid u now,
      HO.MAX_PLAYERS ≤ s.players.length →
      HO.joinGame s pid u now = (s, false)) := by
  refine ⟨?_, ?_, ?_, ?_⟩
  · intro s pid u px py p hw hlen hp
    unfold SD.joinGame
    rw [if_neg (by simp [hw]), if_neg (by omega), hp]
  · intro s pid u px py hlen
    unfold SD.joinGame
    by_cases hw : s.phase = Phase.waiting
    · rw [if_neg (by simp [hw]), if_pos hlen]
    · rw [if_pos hw]
  · intro s pid u now p hlen hp
    unfold HO.joinGame
    rw [if_neg (by omega), hp]
  · intro s pid u now hlen
    unfold HO.joinGame
    rw [if_pos hlen]

/-- Witness for the amended C4: in a below-cap waiting session, re-joining
with a present id returns the session unchanged, and joining the full
session `sdFull` is rejected. -/
theorem join_idempotent_below_cap_witness :
    SD.joinGame sdWaiting "p1" "p1" 0 0 = (sdWaiting, true) ∧
    SD.joinGame sdFull "p3" "p3" 0 0 = (sdFull, false) := by
  constructor
  · exact join_idempotent_below_cap.1 sdWaiting "p1" "p1" 0 0
      (sdP "p1" SD.Role.crewmate SD.Status.alive 0 3 false none)
      (by decide) (by decide) (by decide)
  · exact join_idempotent_below_cap.2.1 sdFull "p3" "p3" 0 0 (by decide)

/-! ## C5 -/

/-- A hidden-object session whose countdown has expired: the phase is
`ended`. -/
def hoEnded : HO.GameState :=
  { HO.createGame "g" "h" "host" with
      phase := Phase.ended
      gameEndTime := some 900
      timeLeft := some 0 }

/-- Counterexample to C5: the hidden-object `joinGame` has no phase check at
all, so a fresh player can join a session whose phase is already `ended`,
and the player is inserted. -/
theorem join_ended_session_cex :
    hoEnded.phase = Phase.ended ∧
    lookupP hoEnded.players "p2" = none ∧
    (HO.joinGame hoEnded "p2" "u" 5).2 = true ∧
    lookupP (HO.joinGame hoEnded "p2" "u" 5).1.players "p2" ≠ none := by
  decide

/-- C5 (amended): the social-deduction `joinGame` rejects whenever the phase
is not `waiting`; the hidden-object `joinGame` performs no phase check and
inserts any new player into a below-cap session in every phase — including
`ended` — setting the player's `timeStarted` exactly when the phase is
`playing`. -/
theorem joinGame_phase_rules :
    (∀ (s : SD.GameState) pid u px py,
      s.phase ≠ Phase.waiting → SD.joinGame s pid u px py = (s, false)) ∧
    (∀ (s : HO.GameState) pid u now,
      s.players.length < HO.MAX_PLAYERS → lookupP s.players pid = none →
      (HO.joinGame s pid u now).2 = true ∧
      lookupP (HO.joinGame s pid u now).1.players pid =
        some { id := pid, username := u, score := 0, foundImpostors := [],
               timeStarted :=
                 if s.phase = Phase.playing then some now else none }) := by
  constructor
  · intro s pid u px py hw
    unfold SD.joinGame
    rw [if_pos hw]
  · intro s pid u now hlen hnone
    unfold HO.joinGame
    rw [if_neg (by omega), hnone]
    exact ⟨rfl, lookupP_append_right _ _ _ hnone⟩

/-- Witness for the amended C5: a started social-deduction session rejects a
join, and the ended hidden-object session `hoEnded` accepts one. -/
theorem joinGame_phase_rules_witness :
    SD.joinGame sdPlaying "d1" "d1" 0 0 = (sdPlaying, false) ∧
    (HO.joinGame hoEnded "p2" "u" 5).2 = true := by
  constructor
  · exact joinGame_phase_rules.1 sdPlaying "d1" "d1" 0 0 (by decide)
  · exact (joinGame_phase_rules.2 hoEnded "p2" "u" 5 (by decide) (by decide)).1

/-! ## C8 -/

/-- The comparator is total: when `a` does not compare ≤ 0 against `b`, the
swapped comparison does. -/
theorem lbCmp_total (a b : HO.LBEntry) (h : ¬ HO.lbCmp a b ≤ 0) :
    HO.lbCmp b a ≤ 0 := by
  unfold HO.lbCmp at *
  by_cases hs : a.score = b.score
  · rw [if_neg (by omega)] at h
    rw [if_neg (by omega)]
    revert h
    rcases a.timeCompleted with _ | ta <;> rcases b.timeCompleted with _ | tb <;>
      intro h
    · exact absurd le_rfl h
    · exact absurd le_rfl h
    · exact absurd le_rfl h
    · dsimp only at h ⊢
      split at h
      · next hcond =>
          rw [if_pos ⟨hcond.2, hcond.1⟩]
          omega
      · exact absurd le_rfl h
  · rw [if_pos hs] at h
    rw [if_pos (fun hx => hs hx.symm)]
    omega

/-- A nonpositive comparison forces a non-increasing score. -/
theorem lbCmp_le_score (a b : HO.LBEntry) (h : HO.lbCmp a b ≤ 0) :
    b.score ≤ a.score := by
  unfold HO.lbCmp at h
  by_cases hs : a.score = b.score
  · omega
  · rw [if_pos hs] at h
    omega

/-- The head of `insertLB a l` is either `a` or the head of `l`. -/
theorem insertLB_head_mem (a : HO.LBEntry) (l : List HO.LBEntry) :
    (HO.insertLB a l).head? = some a ∨ (HO.insertLB a l).head? = l.head? := by
  cases l with
  | nil => left; rfl
  | cons b rest =>
      rw [HO.insertLB]
      by_cases hba : HO.lbCmp b a ≤ 0
      · right; rw [if_pos hba]; rfl
      · left; rw [if_neg hba]; rfl

/-- Inserting preserves the adjacent-comparison chain. -/
theorem chain_insertLB (a : HO.LBEntry) :
    ∀ l : List HO.LBEntry, l.Chain' (fun x y => HO.lbCmp x y ≤ 0) →
      (HO.insertLB a l).Chain' (fun x y => HO.lbCmp x y ≤ 0)
  | [], _ => List.chain'_singleton a
  | b :: rest, h => by
      rw [HO.insertLB]
      by_cases hba : HO.lbCmp b a ≤ 0
      · rw [if_pos hba]
        rw [List.chain'_cons']
        refine ⟨?_, chain_insertLB a rest h.tail⟩
        intro hd hmem
        rcases insertLB_head_mem a rest with hh | hh
        · rw [hh, Option.mem_some_iff] at hmem
          rw [← hmem]
          exact hba
        · rw [hh] at hmem
          exact (List.chain'_cons'.mp h).1 hd hmem
      · rw [if_neg hba]
        exact List.chain'_cons.mpr ⟨lbCmp_total b a hba, h⟩

/-- The whole sorting pass yields an adjacent-comparison chain. -/
theorem chain_sortLB (l : List HO.LBEntry) :
    (HO.sortLB l).Chain' (fun x y => HO.lbCmp x y ≤ 0) := by
  have hgen : ∀ (xs acc : List HO.LBEntry),
      acc.Chain' (fun x y => HO.lbCmp x y ≤ 0) →
      (xs.foldl (fun acc a => HO.insertLB a acc) acc).Chain'
        (fun x y => HO.lbCmp x y ≤ 0) := by
    intro xs
    induction xs with
    | nil => intro acc h; exact h
    | cons x xs ih =>
        intro acc h
        exact ih _ (chain_insertLB x acc h)
  exact hgen l [] List.chain'_nil

/-- The two players of the leaderboard counterexample: equal scores, the
first one (in insertion order) without a completion time, the second one
with one. -/
def lbPlayers : List (String × HO.Player) :=
  [("p1", { id := "p1", username := "p1", score := 100, foundImpostors := [] }),
   ("p2", { id := "p2", username := "p2", score := 100, foundImpostors := [],
            timeCompleted := some 5 })]

/-- Counterexample to C8: with two equal-score players, the comparator
returns 0 whenever either side lacks a truthy `timeCompleted`, so on this
two-element input the single comparison leaves the pair as inserted: the
entry without a completion time ends up in front of the equal-scored entry
that has one, instead of sorting after it. -/
theorem leaderboard_missing_time_cex :
    HO.buildLeaderboard lbPlayers =
      [{ playerId := "p1", username := "p1", score := 100,
         timeCompleted := none },
       { playerId := "p2", username := "p2", score := 100,
         timeCompleted := some 5 }] := by
  decide

/-- C8 (amended): the leaderboard is sorted by score descending, and
adjacent entries always satisfy the comparator — in particular two adjacent
equal-score entries that both carry a completion time are in
earlier-time-first order.  An entry without a truthy completion time,
however, compares equal (comparator 0) to every equal-score entry, so the
sort assigns it no defined position among them: it is not guaranteed to
sort after them, and the earlier-time-first order is not guaranteed across
such an entry. -/
theorem leaderboard_order_amended (players : List (String × HO.Player)) :
    (HO.buildLeaderboard players).Pairwise (fun a b => b.score ≤ a.score) ∧
    (HO.buildLeaderboard players).Chain' (fun a b => HO.lbCmp a b ≤ 0) ∧
    (∀ a b : HO.LBEntry, a.score = b.score →
      a.timeCompleted = none ∨ b.timeCompleted = none → HO.lbCmp a b = 0) := by
  have hchain := chain_sortLB ((players.map (fun e => e.2)).map HO.toEntry)
  refine ⟨?_, hchain, ?_⟩
  · haveI : IsTrans HO.LBEntry (fun a b => b.score ≤ a.score) :=
      ⟨fun a b c hab hbc => le_trans hbc hab⟩
    exact List.chain'_iff_pairwise.mp (hchain.imp lbCmp_le_score)
  · intro a b hs hnone
    unfold HO.lbCmp
    rw [if_neg (by omega)]
    rcases hnone with hn | hn <;> rw [hn]
    all_goals cases a.timeCompleted <;> rfl

/-- Witness for the amended C8 on the concrete counterexample players, and
for the comparator clause at a concrete pair of entries. -/
theorem leaderboard_order_amended_witness :
    (HO.buildLeaderboard lbPlayers).Pairwise
      (fun a b => b.score ≤ a.score) ∧
    HO.lbCmp
      { playerId := "p1", username := "p1", score := 100, timeCompleted := none }
      { playerId := "p2", username := "p2", score := 100,
        timeCompleted := some 5 } = 0 := by
  refine ⟨(leaderboard_order_amended lbPlayers).1, ?_⟩
  exact (leaderboard_order_amended lbPlayers).2.2 _ _ rfl (Or.inl rfl)

/-! ## C3 -/

/-- Number of alive players with a given role (the win-condition counts of
the social-deduction tally). -/
def aliveWithRole (s : SD.GameState) (r : SD.Role) : Nat :=
  ((SD.alivePlayers s).filter (fun p => p.role == r)).length

/-- Resetting votes changes neither statuses nor roles, so it preserves the
alive-with-role counts. -/
theorem alive_role_filter_resetVotes (ps : List (String × SD.Player))
    (r : SD.Role) :
    ((((SD.resetVotes ps).map (fun e => e.2)).filter
        (fun p => p.status == SD.Status.alive)).filter
      (fun p => p.role == r)).length =
    (((ps.map (fun e => e.2)).filter
        (fun p => p.status == SD.Status.alive)).filter
      (fun p => p.role == r)).length := by
  induction ps with
  | nil => rfl
  | cons e rest ih =>
      by_cases h1 : e.2.status = SD.Status.alive <;>
        by_cases h2 : e.2.role = r <;>
          simp [SD.resetVotes, h1, h2] at ih ⊢ <;> omega

/-- The players stored after a tally are the vote-reset of the players left
by the elimination step. -/
theorem runTally_players (s1 : SD.GameState) :
    (SD.runTally s1).players =
      SD.resetVotes (SD.tallyEliminate s1).players := by
  unfold SD.runTally
  dsimp only
  split
  · rfl
  · split <;> rfl

/-- The alive-with-role counts of the tallied state coincide with the counts
taken right after the elimination step. -/
theorem aliveWithRole_runTally (s1 : SD.GameState) (r : SD.Role) :
    aliveWithRole (SD.runTally s1) r =
      ((SD.alivePlayers (SD.tallyEliminate s1)).filter
        (fun p => p.role == r)).length := by
  unfold aliveWithRole SD.alivePlayers
  rw [runTally_players]
  exact alive_role_filter_resetVotes _ r

/-- The win-condition branch taken by `runTally`, in terms of the counts
after the elimination step. -/
theorem runTally_phase_winner (s1 : SD.GameState) :
    (((SD.alivePlayers (SD.tallyEliminate s1)).filter
        (fun p => p.role == SD.Role.impostor)).length = 0 →
      (SD.runTally s1).phase = Phase.ended ∧
      (SD.runTally s1).winner = some SD.Winner.crewmates) ∧
    (((SD.alivePlayers (SD.tallyEliminate s1)).filter
        (fun p => p.role == SD.Role.impostor)).length ≠ 0 →
      ((SD.alivePlayers (SD.tallyEliminate s1)).filter
        (fun p => p.role == SD.Role.crewmate)).length ≤
      ((SD.alivePlayers (SD.tallyEliminate s1)).filter
        (fun p => p.role == SD.Role.impostor)).length →
      (SD.runTally s1).phase = Phase.ended ∧
      (SD.runTally s1).winner = some SD.Winner.impostors) ∧
    (((SD.alivePlayers (SD.tallyEliminate s1)).filter
        (fun p => p.role == SD.Role.impostor)).length ≠ 0 →
      ((SD.alivePlayers (SD.tallyEliminate s1)).filter
        (fun p => p.role == SD.Role.impostor)).length <
      ((SD.alivePlayers (SD.tallyEliminate s1)).filter
        (fun p => p.role == SD.Role.crewmate)).length →
      (SD.runTally s1).phase = Phase.playing) := by
  unfold SD.runTally
  dsimp only
  split
  · next hc =>
      exact ⟨fun _ => ⟨rfl, rfl⟩, fun hne _ => absurd hc hne,
        fun hne _ => absurd hc hne⟩
  · next hc =>
      split
      · next hc2 =>
          exact ⟨fun h0 => absurd h0 hc, fun _ _ => ⟨rfl, rfl⟩,
            fun _ hlt => absurd hc2 (by omega)⟩
      · next hc2 =>
          exact ⟨fun h0 => absurd h0 hc, fun _ hle => absurd hle hc2,
            fun _ _ => rfl⟩

/-- C3: when a cast vote completes the tally (every alive player has voted
once the vote is recorded), the stored session satisfies the win-condition
case split on the remaining alive counts — no impostors alive means ended
with crewmate victory, impostors at least matching crewmates means ended
with impostor victory, otherwise back to playing — and in all three cases
every player's vote state is cleared. -/
theorem castVote_win_conditions (s : SD.GameState) (voterId : String)
    (targetId : Option String) (voter : SD.Player)
    (hvoter : lookupP s.players voterId = some voter)
    (halive : voter.status = SD.Status.alive)
    (hphase : s.phase = Phase.voting)
    (hall : ∀ p ∈ SD.alivePlayers (SD.recordVote s voterId voter targetId),
      p.hasVoted = true) :
    (SD.castVote s voterId targetId).2 = true ∧
    (aliveWithRole (SD.castVote s voterId targetId).1 SD.Role.impostor = 0 →
      (SD.castVote s voterId targetId).1.phase = Phase.ended ∧
      (SD.castVote s voterId targetId).1.winner =
        some SD.Winner.crewmates) ∧
    (aliveWithRole (SD.castVote s voterId targetId).1 SD.Role.impostor ≠ 0 →
      aliveWithRole (SD.castVote s voterId targetId).1 SD.Role.crewmate ≤
        aliveWithRole (SD.castVote s voterId targetId).1 SD.Role.impostor →
      (SD.castVote s voterId targetId).1.phase = Phase.ended ∧
      (SD.castVote s voterId targetId).1.winner =
        some SD.Winner.impostors) ∧
    (aliveWithRole (SD.castVote s voterId targetId).1 SD.Role.impostor ≠ 0 →
      aliveWithRole (SD.castVote s voterId targetId).1 SD.Role.impostor <
        aliveWithRole (SD.castVote s voterId targetId).1 SD.Role.crewmate →
      (SD.castVote s voterId targetId).1.phase = Phase.playing) ∧
    (∀ e ∈ (SD.castVote s voterId targetId).1.players,
      e.2.hasVoted = false ∧ e.2.votedFor = none) := by
  have hcast : SD.castVote s voterId targetId =
      (SD.runTally (SD.recordVote s voterId voter targetId), true) := by
    unfold SD.castVote
    rw [hvoter]
    try dsimp only
    rw [if_neg (by simp [halive, hphase])]
    try dsimp only
    rw [if_pos (by rw [List.filter_eq_self.mpr hall])]
  rw [hcast]
  set s1 := SD.recordVote s voterId voter targetId with hs1
  have hc := runTally_phase_winner s1
  have hi := aliveWithRole_runTally s1 SD.Role.impostor
  have hcw := aliveWithRole_runTally s1 SD.Role.crewmate
  refine ⟨rfl, ?_, ?_, ?_, ?_⟩
  · intro h0
    exact hc.1 (by rw [← hi]; exact h0)
  · intro hne hle
    exact hc.2.1 (by rw [← hi]; exact hne) (by rw [← hi, ← hcw]; exact hle)
  · intro hne hlt
    exact hc.2.2 (by rw [← hi]; exact hne) (by rw [← hi, ← hcw]; exact hlt)
  · intro e he
    rw [runTally_players] at he
    rcases List.mem_map.mp he with ⟨e0, _, rfl⟩
    exact ⟨rfl, rfl⟩

/-- A social-deduction session in the voting phase where only `p4` has not
voted yet; the three other players voted twice for `p1` and once for `p2`. -/
def sdVoting : SD.GameState :=
  { id := "g", phase := Phase.voting, host := "p1",
    players := [
      ("p1", sdP "p1" SD.Role.impostor SD.Status.alive 0 3 true (some "p2")),
      ("p2", sdP "p2" SD.Role.crewmate SD.Status.alive 0 3 true (some "p1")),
      ("p3", sdP "p3" SD.Role.crewmate SD.Status.alive 0 3 true (some "p1")),
      ("p4", sdP "p4" SD.Role.crewmate SD.Status.alive 0 3 false none)] }

/-- Witness for C3: `p4` completes the tally by voting for `p1`; the lone
impostor `p1` is eliminated, so the session ends with the crewmates as
winner. -/
theorem castVote_win_conditions_witness :
    (SD.castVote sdVoting "p4" (some "p1")).2 = true ∧
    (SD.castVote sdVoting "p4" (some "p1")).1.phase = Phase.ended ∧
    (SD.castVote sdVoting "p4" (some "p1")).1.winner =
      some SD.Winner.crewmates := by
  have h := castVote_win_conditions sdVoting "p4" (some "p1")
    (sdP "p4" SD.Role.crewmate SD.Status.alive 0 3 false none)
    (by decide) (by decide) (by decide) (by decide)
  exact ⟨h.1, (h.2.1 (by decide)).1, (h.2.1 (by decide)).2⟩

/-! ## C6 and C7: the hidden-object hit test -/

/-- A hit requires an unfound target whose closed box contains the click. -/
theorem hitTest_eq_true_iff (u v : ℚ) (t : HO.Impostor) :
    HO.hitTest u v t = true ↔ (t.found = false ∧ HO.inBox u v t = true) := by
  unfold HO.hitTest
  cases h : t.found <;> simp [h]

/-- A missed scan is exactly a scan in which no target passes the hit
predicate. -/
theorem markFirst_eq_none_iff (pid : String) (now : Nat) (u v : ℚ) :
    ∀ l : List HO.Impostor,
      HO.markFirst pid now u v l = none ↔ ∀ t ∈ l, HO.hitTest u v t = false
  | [] => by simp [HO.markFirst]
  | t :: rest => by
      rw [HO.markFirst]
      by_cases ht : HO.hitTest u v t = true
      · rw [if_pos ht]
        simp [ht]
      · rw [if_neg ht]
        cases hm : HO.markFirst pid now u v rest with
        | none =>
            constructor
            · intro _ t' ht'
              rcases List.mem_cons.mp ht' with rfl | ht'
              · exact Bool.eq_false_iff.mpr ht
              · exact (markFirst_eq_none_iff pid now u v rest).mp hm t' ht'
            · intro _
              rfl
        | some pr =>
            obtain ⟨rest', m0⟩ := pr
            constructor
            · intro hco
              cases hco
            · intro hforall
              have hnone := (markFirst_eq_none_iff pid now u v rest).mpr
                (fun t' ht' => hforall t' (List.mem_cons_of_mem _ ht'))
              rw [hm] at hnone
              cases hnone

/-- A successful scan splits the list at the first target passing the hit
predicate; only that target is mutated. -/
theorem markFirst_some_spec (pid : String) (now : Nat) (u v : ℚ) :
    ∀ (l l' : List HO.Impostor) (m : HO.Impostor),
      HO.markFirst pid now u v l = some (l', m) →
      ∃ pre t post, l = pre ++ t :: post ∧
        (∀ t' ∈ pre, HO.hitTest u v t' = false) ∧
        HO.hitTest u v t = true ∧
        m = HO.markFound t pid now ∧
        l' = pre ++ HO.markFound t pid now :: post
  | [], l', m => by
      intro h
      cases h
  | t0 :: rest, l', m => by
      intro h
      rw [HO.markFirst] at h
      by_cases ht : HO.hitTest u v t0 = true
      · rw [if_pos ht] at h
        injection h with h'
        injection h' with hl hm2
        subst hl
        subst hm2
        exact ⟨[], t0, rest, rfl, by simp, ht, rfl, rfl⟩
      · rw [if_neg ht] at h
        cases hm : HO.markFirst pid now u v rest with
        | none =>
            rw [hm] at h
            cases h
        | some pr =>
            obtain ⟨rest', m0⟩ := pr
            rw [hm] at h
            injection h with h'
            injection h' with hl hm2
            subst hl
            subst hm2
            obtain ⟨pre, t, post, hdec, hpre, hht, hm0, hrest'⟩ :=
              markFirst_some_spec pid now u v rest rest' m0 hm
            refine ⟨t0 :: pre, t, post, ?_, ?_, hht, hm0, ?_⟩
            · rw [hdec, List.cons_append]
            · intro t' ht'
              rcases List.mem_cons.mp ht' with rfl | ht'
              · exact Bool.eq_false_iff.mpr ht
              · exact hpre t' ht'
            · rw [hrest', List.cons_append]

/-- Evaluation of `findImpostor` on a hit: the response reports the mutated
target, and the win check fires exactly on the source's condition. -/
theorem findImpostor_hit_eval (s : HO.GameState) (pid : String) (u v : ℚ)
    (now : Nat) (pl : HO.Player) (imps' : List HO.Impostor)
    (m : HO.Impostor) (hpl : lookupP s.players pid = some pl)
    (hphase : s.phase = Phase.playing)
    (hmark : HO.markFirst pid now u v s.impostors = some (imps', m)) :
    (HO.findImpostor s pid u v now).found = true ∧
    (HO.findImpostor s pid u v now).impostor = some m ∧
    (HO.findImpostor s pid u v now).state.impostors = imps' ∧
    ((imps'.all (fun t => t.found) = true ∨
      (pl.foundImpostors ++ [m.id]).length = imps'.length) →
      (HO.findImpostor s pid u v now).state.phase = Phase.ended ∧
      (HO.findImpostor s pid u v now).state.gameEndTime = some now ∧
      (HO.findImpostor s pid u v now).state.winner = some pid) ∧
    (¬(imps'.all (fun t => t.found) = true ∨
      (pl.foundImpostors ++ [m.id]).length = imps'.length) →
      (HO.findImpostor s pid u v now).state.phase = s.phase) := by
  unfold HO.findImpostor
  rw [hpl]
  try dsimp only
  rw [if_neg (by simp [hphase]), hmark]
  try dsimp only
  by_cases hwin : imps'.all (fun t => t.found) = true ∨
      (pl.foundImpostors ++ [m.id]).length = imps'.length
  · rw [if_pos hwin]
    exact ⟨rfl, rfl, rfl, fun _ => ⟨rfl, rfl, rfl⟩, fun h => absurd hwin h⟩
  · rw [if_neg hwin]
    exact ⟨rfl, rfl, rfl, fun h => absurd h hwin, fun _ => rfl⟩

/-- Evaluation of `findImpostor` on a miss: the session is returned
untouched. -/
theorem findImpostor_miss_eval (s : HO.GameState) (pid : String) (u v : ℚ)
    (now : Nat) (pl : HO.Player) (hpl : lookupP s.players pid = some pl)
    (hphase : s.phase = Phase.playing)
    (hmark : HO.markFirst pid now u v s.impostors = none) :
    HO.findImpostor s pid u v now = ⟨s, false, none, pl.score⟩ := by
  unfold HO.findImpostor
  rw [hpl]
  try dsimp only
  rw [if_neg (by simp [hphase]), hmark]

/-- A decidable separation test on two boxes, sufficient for disjointness. -/
def boxesSeparated (t1 t2 : HO.Impostor) : Bool :=
  decide (t1.x + t1.width < t2.x) || decide (t2.x + t2.width < t1.x) ||
  decide (t1.y + t1.height < t2.y) || decide (t2.y + t2.height < t1.y)

/-- Separated boxes contain no common point. -/
theorem boxesSeparated_disjoint (t1 t2 : HO.Impostor)
    (h : boxesSeparated t1 t2 = true) :
    ∀ a b : ℚ, ¬(HO.inBox a b t1 = true ∧ HO.inBox a b t2 = true) := by
  intro a b ⟨h1, h2⟩
  simp only [HO.inBox, Bool.and_eq_true, decide_eq_true_eq] at h1 h2
  simp only [boxesSeparated, Bool.or_eq_true, decide_eq_true_eq] at h
  rcases h with ((h | h) | h) | h <;> linarith [h1.1.1.1, h1.1.1.2, h1.1.2,
    h1.2, h2.1.1.1, h2.1.1.2, h2.1.2, h2.2]

/-- The fixed target table of `createGame` has pairwise disjoint boxes, so
the disjointness hypothesis of the hit-test theorem holds on every session
created from it. -/
theorem createGame_boxes_disjoint (postId hostId hostUsername : String) :
    (HO.createGame postId hostId hostUsername).impostors.Pairwise
      (fun t1 t2 => ∀ a b : ℚ,
        ¬(HO.inBox a b t1 = true ∧ HO.inBox a b t2 = true)) := by
  have heq2 : (HO.createGame postId hostId hostUsername).impostors = [
      { id := "impostor_0", x := 15, y := 25, width := 8, height := 12,
        difficulty := HO.Difficulty.easy, found := false },
      { id := "impostor_1", x := 75, y := 40, width := 7, height := 11,
        difficulty := HO.Difficulty.easy, found := false },
      { id := "impostor_2", x := 45, y := 70, width := 8, height := 13,
        difficulty := HO.Difficulty.easy, found := false },
      { id := "impostor_3", x := 30, y := 15, width := 5, height := 8,
        difficulty := HO.Difficulty.medium, found := false },
      { id := "impostor_4", x := 85, y := 60, width := 6, height := 9,
        difficulty := HO.Difficulty.medium, found := false },
      { id := "impostor_5", x := 20, y := 80, width := 5, height := 7,
        difficulty := HO.Difficulty.medium, found := false },
      { id := "impostor_6", x := 65, y := 20, width := 6, height := 8,
        difficulty := HO.Difficulty.medium, found := false },
      { id := "impostor_7", x := 55, y := 35, width := 3, height := 5,
        difficulty := HO.Difficulty.hard, found := false },
      { id := "impostor_8", x := 10, y := 55, width := 4, height := 6,
        difficulty := HO.Difficulty.hard, found := false },
      { id := "impostor_9", x := 90, y := 25, width := 3, height := 4,
        difficulty := HO.Difficulty.hard, found := false },
      { id := "impostor_10", x := 40, y := 85, width := 4, height := 5,
        difficulty := HO.Difficulty.hard, found := false },
      { id := "impostor_11", x := 70, y := 75, width := 3, height := 5,
        difficulty := HO.Difficulty.hard, found := false } ] := by rfl
  have hsep : (HO.createGame postId hostId hostUsername).impostors.Pairwise
      (fun t1 t2 => boxesSeparated t1 t2 = true) := by
    rw [heq2]
    norm_num [List.pairwise_cons, boxesSeparated]
  exact hsep.imp (fun h => boxesSeparated_disjoint _ _ h)

/-- C7: on a playing session and a known player, the matched target (if
any) is the first target in definition order that is not yet found and
whose closed box `[x, x+width] × [y, y+height]` contains the click, and the
response carries that target marked found; when the session's boxes are
pairwise disjoint (as the fixed target table is), a click that lands in an
already-found target's box, or outside every box, returns `found = false`
and leaves the session — every target's found state, every score and every
found list — unchanged. -/
theorem findImpostor_first_match (s : HO.GameState) (pid : String)
    (u v : ℚ) (now : Nat) (pl : HO.Player)
    (hpl : lookupP s.players pid = some pl)
    (hphase : s.phase = Phase.playing)
    (hdisj : s.impostors.Pairwise
      (fun t1 t2 => ∀ a b : ℚ,
        ¬(HO.inBox a b t1 = true ∧ HO.inBox a b t2 = true))) :
    (∀ m, (HO.findImpostor s pid u v now).impostor = some m →
      ∃ pre t post, s.impostors = pre ++ t :: post ∧
        t.found = false ∧ HO.inBox u v t = true ∧
        (∀ t' ∈ pre, ¬(t'.found = false ∧ HO.inBox u v t' = true)) ∧
        m = HO.markFound t pid now) ∧
    (((∀ t ∈ s.impostors, HO.inBox u v t = false) ∨
      (∃ t ∈ s.impostors, t.found = true ∧ HO.inBox u v t = true)) →
      HO.findImpostor s pid u v now = ⟨s, false, none, pl.score⟩) := by
  constructor
  · intro m hm
    cases hmk : HO.markFirst pid now u v s.impostors with
    | none =>
        rw [findImpostor_miss_eval s pid u v now pl hpl hphase hmk] at hm
        cases hm
    | some pr =>
        obtain ⟨l', m0⟩ := pr
        obtain ⟨-, himp, -, -, -⟩ :=
          findImpostor_hit_eval s pid u v now pl l' m0 hpl hphase hmk
        rw [himp, Option.some.injEq] at hm
        subst hm
        obtain ⟨pre, t, post, hdec, hpre, hht, hm0, -⟩ :=
          markFirst_some_spec pid now u v s.impostors l' m0 hmk
        obtain ⟨hf, hb⟩ := (hitTest_eq_true_iff u v t).mp hht
        refine ⟨pre, t, post, hdec, hf, hb, ?_, hm0⟩
        intro t' ht' hcontra
        have h1 := (hitTest_eq_true_iff u v t').mpr hcontra
        rw [hpre t' ht'] at h1
        cases h1
  · intro hcase
    have hnone : HO.markFirst pid now u v s.impostors = none := by
      rw [markFirst_eq_none_iff]
      intro t ht
      rcases hcase with hout | ⟨t0, ht0, hfound0, hbox0⟩
      · unfold HO.hitTest
        rw [hout t ht]
        simp
      · by_cases hbt : HO.inBox u v t = true
        · by_cases hte : t = t0
          · subst hte
            unfold HO.hitTest
            rw [hfound0]
            simp
          · have hsym : Symmetric (fun t1 t2 : HO.Impostor => ∀ a b : ℚ,
                ¬(HO.inBox a b t1 = true ∧ HO.inBox a b t2 = true)) :=
              fun x y hxy a b hab => hxy a b ⟨hab.2, hab.1⟩
            exact absurd ⟨hbt, hbox0⟩ (hdisj.forall hsym ht ht0 hte u v)
        · unfold HO.hitTest
          rw [Bool.not_eq_true] at hbt
          rw [hbt]
          simp
    exact findImpostor_miss_eval s pid u v now pl hpl hphase hnone

/-- A found target and an unfound target with separated boxes, plus the
player who found the first one. -/
def hoT0 : HO.Impostor :=
  { id := "t0", x := 0, y := 0, width := 10, height := 10,
    difficulty := HO.Difficulty.easy, found := true, foundBy := some "h",
    foundAt := some 5 }

def hoT1 : HO.Impostor :=
  { id := "t1", x := 20, y := 20, width := 10, height := 10,
    difficulty := HO.Difficulty.medium, found := false }

def hoH : HO.Player :=
  { id := "h", username := "h", score := 10, foundImpostors := ["t0"],
    timeStarted := some 0 }

def hoPlay : HO.GameState :=
  { id := "g", phase := Phase.playing, players := [("h", hoH)],
    impostors := [hoT0, hoT1], host := "h", timeLimit := 300,
    leaderboard := [], gameStartTime := some 0, timeLeft := some 290 }

/-- Witness for C7: clicking at (5,5), inside the already-found target
`t0`'s box, is a no-op returning `found = false`. -/
theorem findImpostor_first_match_witness :
    HO.findImpostor hoPlay "h" 5 5 100 = ⟨hoPlay, false, none, 10⟩ := by
  have hdisj : hoPlay.impostors.Pairwise
      (fun t1 t2 => ∀ a b : ℚ,
        ¬(HO.inBox a b t1 = true ∧ HO.inBox a b t2 = true)) := by
    have hsep : hoPlay.impostors.Pairwise
        (fun t1 t2 => boxesSeparated t1 t2 = true) := by
      norm_num [hoPlay, hoT0, hoT1, List.pairwise_cons, boxesSeparated]
    exact hsep.imp (fun h => boxesSeparated_disjoint _ _ h)
  have h := findImpostor_first_match hoPlay "h" 5 5 100 hoH (by decide)
    (by decide) hdisj
  refine h.2 (Or.inr ⟨hoT0, ?_, rfl, ?_⟩)
  · show hoT0 ∈ [hoT0, hoT1]
    exact List.mem_cons_self _ _
  · norm_num [HO.inBox, hoT0]

/-- C6: a hit in the playing phase ends the game exactly when, after the
matched target is marked found, either every target of the session is found
or the acting player's personal found list covers every target; in that
case `gameEndTime` is recorded and `winner` is set to the acting player's
id, and otherwise the phase stays `playing`.  The session invariants
(distinct target ids, the player's found list duplicate-free and made of
target ids) hold on every reachable session. -/
theorem findImpostor_win_check (s : HO.GameState) (pid : String) (u v : ℚ)
    (now : Nat) (pl : HO.Player) (imps' : List HO.Impostor)
    (m : HO.Impostor) (hpl : lookupP s.players pid = some pl)
    (hphase : s.phase = Phase.playing)
    (hmark : HO.markFirst pid now u v s.impostors = some (imps', m))
    (hids : (s.impostors.map (fun t => t.id)).Nodup)
    (hfound : (pl.foundImpostors ++ [m.id]).Nodup)
    (hsub : ∀ tid ∈ pl.foundImpostors, tid ∈ s.impostors.map (fun t => t.id)) :
    (HO.findImpostor s pid u v now).found = true ∧
    (((∀ t ∈ imps', t.found = true) ∨
      (∀ t ∈ imps', t.id ∈ pl.foundImpostors ++ [m.id])) →
      (HO.findImpostor s pid u v now).state.phase = Phase.ended ∧
      (HO.findImpostor s pid u v now).state.gameEndTime = some now ∧
      (HO.findImpostor s pid u v now).state.winner = some pid) ∧
    (¬((∀ t ∈ imps', t.found = true) ∨
      (∀ t ∈ imps', t.id ∈ pl.foundImpostors ++ [m.id])) →
      (HO.findImpostor s pid u v now).state.phase = Phase.playing) := by
  obtain ⟨hfnd, himp, himps, hwin, hnwin⟩ :=
    findImpostor_hit_eval s pid u v now pl imps' m hpl hphase hmark
  obtain ⟨pre, t, post, hdec, hpre, hht, hm, hl'⟩ :=
    markFirst_some_spec pid now u v s.impostors imps' m hmark
  have hidmap : imps'.map (fun t => t.id) = s.impostors.map (fun t => t.id) := by
    rw [hl', hdec]
    simp [HO.markFound]
  have hmid : m.id ∈ imps'.map (fun t => t.id) := by
    rw [hl', hm]
    simp [HO.markFound]
  have hsub1 : (pl.foundImpostors ++ [m.id]) ⊆ imps'.map (fun t => t.id) := by
    intro x hx
    rcases List.mem_append.mp hx with hx | hx
    · rw [hidmap]
      exact hsub x hx
    · rw [List.mem_singleton] at hx
      subst hx
      exact hmid
  have hids' : (imps'.map (fun t => t.id)).Nodup := by
    rw [hidmap]
    exact hids
  have hcond : ((∀ t' ∈ imps', t'.found = true) ∨
      (∀ t' ∈ imps', t'.id ∈ pl.foundImpostors ++ [m.id])) ↔
      (imps'.all (fun t' => t'.found) = true ∨
       (pl.foundImpostors ++ [m.id]).length = imps'.length) := by
    constructor
    · rintro (h | h)
      · exact Or.inl (List.all_eq_true.mpr h)
      · right
        have hsub2 : imps'.map (fun t => t.id) ⊆
            (pl.foundImpostors ++ [m.id]) := by
          intro x hx
          rcases List.mem_map.mp hx with ⟨t', ht', rfl⟩
          exact h t' ht'
        have h1 := (List.subperm_of_subset hfound hsub1).length_le
        have h2 := (List.subperm_of_subset hids' hsub2).length_le
        rw [List.length_map] at h1 h2
        omega
    · rintro (h | h)
      · exact Or.inl (List.all_eq_true.mp h)
      · right
        have hperm : (pl.foundImpostors ++ [m.id]).Perm
            (imps'.map (fun t => t.id)) :=
          (List.subperm_of_subset hfound hsub1).perm_of_length_le
            (by rw [List.length_map]; omega)
        intro t' ht'
        exact hperm.symm.subset (List.mem_map_of_mem _ ht')
  refine ⟨hfnd, ?_, ?_⟩
  · intro hcov
    exact hwin (hcond.mp hcov)
  · intro hncov
    exact (hnwin (fun hc => hncov (hcond.mpr hc))).trans hphase

/-- Witness for C6: on the session `hoPlay` a click at (25,25) hits the
remaining unfound target `t1`; afterwards every target is found, so the
session ends with `h` as winner. -/
theorem findImpostor_win_check_witness :
    (HO.findImpostor hoPlay "h" 25 25 7).found = true ∧
    (HO.findImpostor hoPlay "h" 25 25 7).state.phase = Phase.ended ∧
    (HO.findImpostor hoPlay "h" 25 25 7).state.winner = some "h" := by
  have h1 : HO.hitTest 25 25 hoT0 = false := by
    simp [HO.hitTest, hoT0]
  have h2 : HO.hitTest 25 25 hoT1 = true := by
    simp only [HO.hitTest, HO.inBox, hoT1, Bool.not_false, Bool.true_and]
    norm_num
  have hmark : HO.markFirst "h" 7 25 25 hoPlay.impostors =
      some ([hoT0, HO.markFound hoT1 "h" 7], HO.markFound hoT1 "h" 7) := by
    show HO.markFirst "h" 7 25 25 [hoT0, hoT1] = _
    simp [HO.markFirst, h1, h2]
  have h := findImpostor_win_check hoPlay "h" 25 25 7 hoH
    [hoT0, HO.markFound hoT1 "h" 7] (HO.markFound hoT1 "h" 7)
    (by decide) (by decide) hmark (by decide) (by decide) (by decide)
  have hw := h.2.1 (Or.inl (by decide))
  exact ⟨h.1, hw.1, hw.2.2⟩

/-! ## C2: characterization of the vote tally -/

/-- Number of effective votes for target `t` among the given players. -/
def cntVotes (alive : List SD.Player) (t : String) : Nat :=
  (alive.filter (fun p => SD.effVote p == some t)).length

/-- Number of skip votes among the given players. -/
def skipVotes (alive : List SD.Player) : Nat :=
  (alive.filter (fun p => SD.effVote p == none)).length

/-- Count recorded for key `k` in the vote record (0 when absent). -/
def lookupN (l : List (String × Nat)) (k : String) : Nat :=
  ((l.find? (fun e => e.1 == k)).map (fun e => e.2)).getD 0

/-- Invariant of the vote record: keys are distinct, nonempty strings, and
counts are positive. -/
def VotesInv (l : List (String × Nat)) : Prop :=
  (l.map Prod.fst).Nodup ∧ (∀ e ∈ l, 1 ≤ e.2) ∧ (∀ e ∈ l, e.1 ≠ "")

theorem lookupN_nil (k : String) : lookupN [] k = 0 := rfl

theorem lookupN_cons (e : String × Nat) (rest : List (String × Nat))
    (k : String) :
    lookupN (e :: rest) k = if e.1 = k then e.2 else lookupN rest k := by
  by_cases h : e.1 = k
  · simp [lookupN, List.find?, h]
  · simp only [lookupN, List.find?]
    have hb : (e.1 == k) = false := by simp [h]
    simp [hb, h]

theorem bump_keys_mem : ∀ (l : List (String × Nat)) (t k : String),
    (k ∈ (SD.bump l t).map Prod.fst ↔ k ∈ l.map Prod.fst ∨ k = t)
  | [], t, k => by simp [SD.bump]
  | e :: rest, t, k => by
      rw [SD.bump]
      by_cases h1 : e.1 = t
      · rw [if_pos (by simp [h1])]
        subst h1
        simp only [List.map_cons, List.mem_cons]
        tauto
      · rw [if_neg (by simp [h1])]
        simp only [List.map_cons, List.mem_cons]
        rw [bump_keys_mem rest t k]
        tauto

theorem lookupN_bump : ∀ (l : List (String × Nat)) (t k : String),
    lookupN (SD.bump l t) k =
      if k = t then lookupN l k + 1 else lookupN l k
  | [], t, k => by
      by_cases h : k = t
      · subst h
        simp [SD.bump, lookupN_cons, lookupN_nil]
      · have h2 : ¬(t = k) := fun hh => h hh.symm
        simp [SD.bump, lookupN_cons, lookupN_nil, h, h2]
  | e :: rest, t, k => by
      rw [SD.bump]
      by_cases h1 : e.1 = t
      · rw [if_pos (by simp [h1])]
        rw [lookupN_cons, lookupN_cons]
        by_cases h2 : e.1 = k
        · have hk : k = t := by rw [← h2, h1]
          simp [h2, hk]
        · have hk : ¬(k = t) := fun hh => h2 (by rw [h1, ← hh])
          simp [h2, hk]
      · rw [if_neg (by simp [h1])]
        rw [lookupN_cons, lookupN_cons]
        by_cases h2 : e.1 = k
        · have hk : ¬(k = t) := fun hh => h1 (by rw [h2, hh])
          simp [h2, hk]
        · simp only [h2, if_false]
          exact lookupN_bump rest t k

theorem votesInv_bump : ∀ (l : List (String × Nat)) (t : String), t ≠ "" →
    VotesInv l → VotesInv (SD.bump l t)
  | [], t, ht, _ => by
      refine ⟨by simp [SD.bump], ?_, ?_⟩
      · intro e he
        rcases List.mem_cons.mp he with rfl | he
        · exact le_refl 1
        · cases he
      · intro e he
        rcases List.mem_cons.mp he with rfl | he
        · exact ht
        · cases he
  | e :: rest, t, ht, h => by
      obtain ⟨hn, hv, hk⟩ := h
      have hn' : e.1 ∉ rest.map Prod.fst ∧ (rest.map Prod.fst).Nodup := by
        rw [List.map_cons, List.nodup_cons] at hn
        exact hn
      rw [SD.bump]
      by_cases h1 : e.1 = t
      · rw [if_pos (by simp [h1])]
        refine ⟨by simpa using hn, ?_, ?_⟩
        · intro x hx
          rcases List.mem_cons.mp hx with rfl | hx
          · omega
          · exact hv x (List.mem_cons_of_mem _ hx)
        · intro x hx
          rcases List.mem_cons.mp hx with rfl | hx
          · exact hk e (List.mem_cons_self _ _)
          · exact hk x (List.mem_cons_of_mem _ hx)
      · rw [if_neg (by simp [h1])]
        have hrest : VotesInv rest :=
          ⟨hn'.2, fun x hx => hv x (List.mem_cons_of_mem _ hx),
            fun x hx => hk x (List.mem_cons_of_mem _ hx)⟩
        obtain ⟨hbn, hbv, hbk⟩ := votesInv_bump rest t ht hrest
        refine ⟨?_, ?_, ?_⟩
        · rw [List.map_cons, List.nodup_cons]
          refine ⟨?_, hbn⟩
          intro hmem
          rcases (bump_keys_mem rest t e.1).mp hmem with hmem | hmem
          · exact hn'.1 hmem
          · exact h1 hmem
        · intro x hx
          rcases List.mem_cons.mp hx with hxe | hx
          · rw [hxe]
            exact hv e (List.mem_cons_self _ _)
          · exact hbv x hx
        · intro x hx
          rcases List.mem_cons.mp hx with hxe | hx
          · rw [hxe]
            exact hk e (List.mem_cons_self _ _)
          · exact hbk x hx

theorem mem_lookupN : ∀ (l : List (String × Nat)),
    (l.map Prod.fst).Nodup → ∀ e ∈ l, lookupN l e.1 = e.2
  | [], _, e, he => absurd he (List.not_mem_nil e)
  | f :: rest, hn, e, he => by
      rw [lookupN_cons]
      rcases List.mem_cons.mp he with rfl | he
      · rw [if_pos rfl]
      · by_cases hf : f.1 = e.1
        · exfalso
          have hmem : e.1 ∈ rest.map Prod.fst := List.mem_map_of_mem _ he
          rw [← hf] at hmem
          rw [List.map_cons, List.nodup_cons] at hn
          exact hn.1 hmem
        · rw [if_neg hf]
          rw [List.map_cons, List.nodup_cons] at hn
          exact mem_lookupN rest hn.2 e he

theorem lookupN_pos_mem : ∀ (l : List (String × Nat)) (k : String),
    1 ≤ lookupN l k → (k, lookupN l k) ∈ l
  | [], k, h => by rw [lookupN_nil] at h; omega
  | e :: rest, k, h => by
      rw [lookupN_cons] at h ⊢
      by_cases he : e.1 = k
      · subst he
        rw [if_pos rfl] at h ⊢
        exact List.mem_cons_self _ _
      · rw [if_neg he] at h ⊢
        exact List.mem_cons_of_mem _ (lookupN_pos_mem rest k h)

/-- Correctness of the vote-counting fold: starting from an invariant
accumulator, the final record counts every target's effective votes on top
of the accumulator, and the skip counter adds the number of skips. -/
theorem buildVotes_go : ∀ (ps : List SD.Player)
    (acc : List (String × Nat) × Nat), VotesInv acc.1 →
    VotesInv (ps.foldl SD.voteStep acc).1 ∧
    (∀ k, lookupN (ps.foldl SD.voteStep acc).1 k =
      lookupN acc.1 k + cntVotes ps k) ∧
    (ps.foldl SD.voteStep acc).2 = acc.2 + skipVotes ps
  | [], acc, h => by
      refine ⟨h, ?_, ?_⟩ <;> simp [cntVotes, skipVotes]
  | p :: ps, acc, h => by
      rw [List.foldl_cons]
      cases hv : SD.effVote p with
      | none =>
          have hstep : SD.voteStep acc p = (acc.1, acc.2 + 1) := by
            unfold SD.voteStep
            rw [hv]
          rw [hstep]
          obtain ⟨ih1, ih2, ih3⟩ := buildVotes_go ps (acc.1, acc.2 + 1) h
          refine ⟨ih1, ?_, ?_⟩
          · intro k
            rw [ih2 k]
            have : cntVotes (p :: ps) k = cntVotes ps k := by
              unfold cntVotes
              rw [List.filter_cons, if_neg (by simp [hv])]
            rw [this]
          · rw [ih3]
            have : skipVotes (p :: ps) = skipVotes ps + 1 := by
              unfold skipVotes
              rw [List.filter_cons, if_pos (by simp [hv])]
              simp [Nat.add_comm]
            rw [this]
            omega
      | some t =>
          have ht : t ≠ "" := by
            unfold SD.effVote at hv
            cases hvf : p.votedFor with
            | none => rw [hvf] at hv; cases hv
            | some t0 =>
                rw [hvf] at hv
                dsimp only at hv
                by_cases h0 : t0 = ""
                · rw [if_pos (by simp [h0])] at hv
                  cases hv
                · rw [if_neg (by simp [h0])] at hv
                  injection hv with hv
                  rw [← hv]
                  exact h0
          have hstep : SD.voteStep acc p = (SD.bump acc.1 t, acc.2) := by
            unfold SD.voteStep
            rw [hv]
          rw [hstep]
          obtain ⟨ih1, ih2, ih3⟩ := buildVotes_go ps (SD.bump acc.1 t, acc.2)
            (votesInv_bump acc.1 t ht h)
          refine ⟨ih1, ?_, ?_⟩
          · intro k
            rw [ih2 k]
            have hbk := lookupN_bump acc.1 t k
            have hcnt : cntVotes (p :: ps) k =
                (if k = t then 1 else 0) + cntVotes ps k := by
              unfold cntVotes
              rw [List.filter_cons]
              by_cases hk : k = t
              · subst hk
                rw [if_pos (by simp [hv])]
                simp [Nat.add_comm]
              · rw [if_neg (by simp [hv, Ne.symm hk])]
                simp [hk]
            rw [hcnt, hbk]
            by_cases hk : k = t
            · rw [if_pos hk, if_pos hk]
              omega
            · rw [if_neg hk, if_neg hk]
              omega
          · rw [ih3]
            have : skipVotes (p :: ps) = skipVotes ps := by
              unfold skipVotes
              rw [List.filter_cons, if_neg (by simp [hv])]
            rw [this]

/-- Characterization of the `mostVoted`/`maxVotes`/`tie` scan on a
well-formed, nonempty vote record: the scan returns an entry of the record
attaining the maximum count, and `tie` is unset exactly when a single entry
attains that maximum. -/
theorem findMost_spec (l : List (String × Nat)) :
    l ≠ [] → VotesInv l →
    ((SD.findMost l).1, (SD.findMost l).2.1) ∈ l ∧
    (∀ e ∈ l, e.2 ≤ (SD.findMost l).2.1) ∧
    ((SD.findMost l).2.2 = false ↔
      (l.filter (fun e => e.2 == (SD.findMost l).2.1)).length = 1) := by
  induction l using List.reverseRecOn with
  | nil => intro hne; exact absurd rfl hne
  | append_singleton l e ih =>
      intro _ hinv
      have hinvl : VotesInv l := by
        obtain ⟨hn, hv, hk⟩ := hinv
        refine ⟨?_, ?_, ?_⟩
        · rw [List.map_append] at hn
          exact hn.of_append_left
        · exact fun x hx => hv x (List.mem_append_left _ hx)
        · exact fun x hx => hk x (List.mem_append_left _ hx)
      have he1 : 1 ≤ e.2 := hinv.2.1 e (List.mem_append_right _
        (List.mem_singleton_self e))
      have hfm : SD.findMost (l ++ [e]) = SD.mostStep (SD.findMost l) e := by
        unfold SD.findMost
        rw [List.foldl_append]
        rfl
      by_cases hl0 : l = []
      · subst hl0
        rw [List.nil_append]
        have hms : SD.findMost [e] = (e.1, e.2, false) := by
          unfold SD.findMost
          rw [List.foldl_cons, List.foldl_nil]
          unfold SD.mostStep
          rw [if_pos (by dsimp only; omega)]
        rw [hms]
        refine ⟨by simp, by simp, ?_⟩
        constructor
        · intro _
          simp
        · intro _
          rfl
      · obtain ⟨ih1, ih2, ih3⟩ := ih hl0 hinvl
        rw [hfm]
        unfold SD.mostStep
        by_cases hlt : (SD.findMost l).2.1 < e.2
        · rw [if_pos hlt]
          dsimp only
          have hfilter : l.filter (fun x => x.2 == e.2) = [] := by
            rw [List.filter_eq_nil_iff]
            intro x hx
            have := ih2 x hx
            simp only [beq_iff_eq]
            omega
          refine ⟨?_, ?_, ?_⟩
          · exact List.mem_append_right _ (by simp)
          · intro x hx
            rcases List.mem_append.mp hx with hx | hx
            · exact le_of_lt (lt_of_le_of_lt (ih2 x hx) hlt)
            · rw [List.mem_singleton] at hx
              subst hx
              exact le_refl _
          · constructor
            · intro _
              rw [List.filter_append, hfilter]
              simp
            · intro _
              rfl
        · rw [if_neg hlt]
          by_cases heq : e.2 = (SD.findMost l).2.1
          · have hM : 0 < (SD.findMost l).2.1 := by omega
            rw [if_pos (by simp [heq, hM])]
            dsimp only
            have hmemf : ((SD.findMost l).1, (SD.findMost l).2.1) ∈
                l.filter (fun x => x.2 == (SD.findMost l).2.1) :=
              List.mem_filter.mpr ⟨ih1, by simp⟩
            refine ⟨List.mem_append_left _ ih1, ?_, ?_⟩
            · intro x hx
              rcases List.mem_append.mp hx with hx | hx
              · exact ih2 x hx
              · rw [List.mem_singleton] at hx
                subst hx
                omega
            · constructor
              · intro hco
                cases hco
              · intro hco
                exfalso
                rw [List.filter_append] at hco
                have h1 := List.length_pos_of_mem hmemf
                have h2 : (List.filter (fun x => x.2 ==
                    (SD.findMost l).2.1) [e]).length = 1 := by
                  rw [List.filter_cons, if_pos (by simp [heq])]
                  rfl
                rw [List.length_append, h2] at hco
                omega
          · rw [if_neg (by simp [heq])]
            have hfe : (List.filter (fun x => x.2 ==
                (SD.findMost l).2.1) [e]).length = 0 := by
              rw [List.filter_cons, if_neg (by simp [heq])]
              rfl
            refine ⟨List.mem_append_left _ ih1, ?_, ?_⟩
            · intro x hx
              rcases List.mem_append.mp hx with hx | hx
              · exact ih2 x hx
              · rw [List.mem_singleton] at hx
                subst hx
                omega
            · rw [List.filter_append, List.length_append, hfe]
              simpa using ih3
theorem lookupP_resetVotes (ps : List (String × SD.Player)) (pid : String) :
    lookupP (SD.resetVotes ps) pid = (lookupP ps pid).map
      (fun p => { p with hasVoted := false, votedFor := none }) := by
  induction ps with
  | nil => rfl
  | cons e rest ih =>
      simp only [SD.resetVotes, List.map_cons] at *
      rw [lookupP_cons, lookupP_cons]
      by_cases h : e.1 = pid
      · simp [h]
      · simp [h, ih]

theorem recordVote_status (s : SD.GameState) (voterId : String)
    (voter : SD.Player) (targetId : Option String)
    (hvoter : lookupP s.players voterId = some voter) (pid : String) :
    (lookupP (SD.recordVote s voterId voter targetId).players pid).map
      SD.Player.status = (lookupP s.players pid).map SD.Player.status := by
  unfold SD.recordVote
  dsimp only
  rw [lookupP_setP]
  by_cases h : pid = voterId
  · subst h
    rw [if_pos rfl, hvoter]
    rfl
  · rw [if_neg h]

theorem runTally_status (s1 : SD.GameState) (pid : String) :
    (lookupP (SD.runTally s1).players pid).map SD.Player.status =
      (lookupP (SD.tallyEliminate s1).players pid).map SD.Player.status := by
  rw [runTally_players, lookupP_resetVotes]
  cases lookupP (SD.tallyEliminate s1).players pid <;> rfl

theorem map_status_exists (o : Option SD.Player) :
    o.map SD.Player.status = some SD.Status.dead ↔
      ∃ q0, o = some q0 ∧ q0.status = SD.Status.dead := by
  cases o <;> simp

/-- Keys of a vote record restricted to a single value: at most one entry. -/
theorem length_le_one_of_keys_const (l : List (String × Nat))
    (hn : (l.map Prod.fst).Nodup) (w : String) (hall : ∀ e ∈ l, e.1 = w) :
    l.length ≤ 1 := by
  match l with
  | [] => simp
  | [a] => simp
  | a :: b :: rest =>
      exfalso
      rw [List.map_cons, List.map_cons, List.nodup_cons] at hn
      apply hn.1
      rw [hall a (List.mem_cons_self _ _)]
      rw [← hall b (List.mem_cons_of_mem _ (List.mem_cons_self _ _))]
      exact List.mem_cons_self _ _

/-- The elimination condition of the tally holds exactly when there is a
unique strict-maximum candidate whose count beats the skip count, and in
that case `mostVoted` is that candidate. -/
theorem votes_usm_spec (alive : List SD.Player) :
    (((SD.findMost (SD.buildVotes alive).1).1 ≠ "" ∧
      (SD.findMost (SD.buildVotes alive).1).2.2 = false ∧
      (SD.buildVotes alive).2 < (SD.findMost (SD.buildVotes alive).1).2.1) →
      (skipVotes alive <
         cntVotes alive (SD.findMost (SD.buildVotes alive).1).1 ∧
       ∀ t, t ≠ (SD.findMost (SD.buildVotes alive).1).1 →
         cntVotes alive t <
           cntVotes alive (SD.findMost (SD.buildVotes alive).1).1)) ∧
    (∀ w, (skipVotes alive < cntVotes alive w ∧
        ∀ t, t ≠ w → cntVotes alive t < cntVotes alive w) →
      ((SD.findMost (SD.buildVotes alive).1).1 ≠ "" ∧
       (SD.findMost (SD.buildVotes alive).1).2.2 = false ∧
       (SD.buildVotes alive).2 < (SD.findMost (SD.buildVotes alive).1).2.1) ∧
      (SD.findMost (SD.buildVotes alive).1).1 = w) := by
  obtain ⟨hinv, hcnt0, hskip0⟩ := buildVotes_go alive ([], 0)
    ⟨List.nodup_nil, by simp, by simp⟩
  have hcnt : ∀ k, lookupN (SD.buildVotes alive).1 k = cntVotes alive k := by
    intro k
    have h := hcnt0 k
    rw [lookupN_nil] at h
    simpa using h
  have hskip : (SD.buildVotes alive).2 = skipVotes alive := by
    simpa using hskip0
  have hinv' : VotesInv (SD.buildVotes alive).1 := hinv
  have hfilterkeys : ((SD.buildVotes alive).1.filter
      (fun e => e.2 == (SD.findMost (SD.buildVotes alive).1).2.1)).map
        Prod.fst |>.Nodup :=
    ((List.filter_sublist _).map Prod.fst).nodup hinv'.1
  constructor
  · rintro ⟨hmv, htie, hskiplt⟩
    have hne : (SD.buildVotes alive).1 ≠ [] := by
      intro h0
      apply hmv
      rw [h0]
      rfl
    obtain ⟨hmem, hmax, htieiff⟩ := findMost_spec _ hne hinv'
    have hcntmv : cntVotes alive (SD.findMost (SD.buildVotes alive).1).1 =
        (SD.findMost (SD.buildVotes alive).1).2.1 := by
      have h := mem_lookupN _ hinv'.1 _ hmem
      rw [hcnt] at h
      exact h
    refine ⟨by rw [hcntmv]; omega, ?_⟩
    intro t ht
    have hM1 : 1 ≤ (SD.findMost (SD.buildVotes alive).1).2.1 :=
      hinv'.2.1 _ hmem
    by_cases hct : cntVotes alive t = 0
    · rw [hct, hcntmv]
      omega
    · have hpos : 1 ≤ lookupN (SD.buildVotes alive).1 t := by
        rw [hcnt]
        omega
      have hmemt := lookupN_pos_mem _ t hpos
      have hle := hmax _ hmemt
      rcases Nat.lt_or_ge (lookupN (SD.buildVotes alive).1 t)
        (SD.findMost (SD.buildVotes alive).1).2.1 with hlt | hge
      · rw [hcnt] at hlt
        rw [hcntmv]
        omega
      · exfalso
        have heqM : lookupN (SD.buildVotes alive).1 t =
            (SD.findMost (SD.buildVotes alive).1).2.1 := by omega
        have hone := htieiff.mp htie
        obtain ⟨a, ha⟩ := List.length_eq_one.mp hone
        have hina : ((SD.findMost (SD.buildVotes alive).1).1,
            (SD.findMost (SD.buildVotes alive).1).2.1) ∈
            (SD.buildVotes alive).1.filter
              (fun e => e.2 == (SD.findMost (SD.buildVotes alive).1).2.1) :=
          List.mem_filter.mpr ⟨hmem, by simp⟩
        have hinb : (t, lookupN (SD.buildVotes alive).1 t) ∈
            (SD.buildVotes alive).1.filter
              (fun e => e.2 == (SD.findMost (SD.buildVotes alive).1).2.1) :=
          List.mem_filter.mpr ⟨hmemt, by simp [heqM]⟩
        rw [ha, List.mem_singleton] at hina hinb
        apply ht
        rw [← hinb] at hina
        exact (congrArg Prod.fst hina).symm
  · intro w hw
    have hw1 : 1 ≤ cntVotes alive w := by omega
    have hpos : 1 ≤ lookupN (SD.buildVotes alive).1 w := by
      rw [hcnt]
      omega
    have hmemw := lookupN_pos_mem _ w hpos
    have hne : (SD.buildVotes alive).1 ≠ [] := List.ne_nil_of_mem hmemw
    obtain ⟨hmem, hmax, htieiff⟩ := findMost_spec _ hne hinv'
    have hcntmv : cntVotes alive (SD.findMost (SD.buildVotes alive).1).1 =
        (SD.findMost (SD.buildVotes alive).1).2.1 := by
      have h := mem_lookupN _ hinv'.1 _ hmem
      rw [hcnt] at h
      exact h
    have hwle := hmax _ hmemw
    have hmveq : (SD.findMost (SD.buildVotes alive).1).1 = w := by
      by_contra hne2
      have h1 := hw.2 _ hne2
      rw [hcnt] at hwle
      omega
    have hMw : (SD.findMost (SD.buildVotes alive).1).2.1 =
        cntVotes alive w := by
      rw [← hmveq, hcntmv]
    refine ⟨⟨hinv'.2.2 _ hmem, ?_, ?_⟩, hmveq⟩
    · apply htieiff.mpr
      have hallw : ∀ e ∈ (SD.buildVotes alive).1.filter
          (fun e => e.2 == (SD.findMost (SD.buildVotes alive).1).2.1),
          e.1 = w := by
        intro e he
        obtain ⟨hel, hev⟩ := List.mem_filter.mp he
        by_contra hnew
        have h1 := hw.2 _ hnew
        have h2 := mem_lookupN _ hinv'.1 _ hel
        rw [hcnt] at h2
        rw [beq_iff_eq] at hev
        rw [hMw] at hev
        omega
      have hle1 := length_le_one_of_keys_const _ hfilterkeys w hallw
      have hge1 : 1 ≤ ((SD.buildVotes alive).1.filter
          (fun e => e.2 == (SD.findMost (SD.buildVotes alive).1).2.1)).length :=
        List.length_pos_of_mem (List.mem_filter.mpr ⟨hmem, by simp⟩)
      omega
    · rw [hskip, hMw]
      exact hw.1

/-- Branch evaluation of the elimination step. -/
theorem tallyEliminate_eval (s1 : SD.GameState) :
    (¬((SD.findMost (SD.buildVotes (SD.alivePlayers s1)).1).1 ≠ "" ∧
       (SD.findMost (SD.buildVotes (SD.alivePlayers s1)).1).2.2 = false ∧
       (SD.buildVotes (SD.alivePlayers s1)).2 <
         (SD.findMost (SD.buildVotes (SD.alivePlayers s1)).1).2.1) →
      SD.tallyEliminate s1 = s1) ∧
    (((SD.findMost (SD.buildVotes (SD.alivePlayers s1)).1).1 ≠ "" ∧
      (SD.findMost (SD.buildVotes (SD.alivePlayers s1)).1).2.2 = false ∧
      (SD.buildVotes (SD.alivePlayers s1)).2 <
        (SD.findMost (SD.buildVotes (SD.alivePlayers s1)).1).2.1) →
      (lookupP s1.players
          (SD.findMost (SD.buildVotes (SD.alivePlayers s1)).1).1 = none →
        SD.tallyEliminate s1 = s1) ∧
      (∀ ep, lookupP s1.players
          (SD.findMost (SD.buildVotes (SD.alivePlayers s1)).1).1 = some ep →
        SD.tallyEliminate s1 = { s1 with
          players := setP s1.players
            (SD.findMost (SD.buildVotes (SD.alivePlayers s1)).1).1
            ({ ep with status := SD.Status.dead })
          eliminatedPlayer :=
            some (SD.findMost (SD.buildVotes (SD.alivePlayers s1)).1).1 })) := by
  unfold SD.tallyEliminate
  dsimp only
  constructor
  · intro hnc
    rw [if_neg hnc]
  · intro hc
    rw [if_pos hc]
    constructor
    · intro hnone
      rw [hnone]
    · intro ep hep
      rw [hep]

/-- Status change performed by the elimination step: a player is newly dead
exactly when it is the unique strict-maximum candidate with more votes than
skips. -/
theorem tallyEliminate_status (s1 : SD.GameState) (pid : String)
    (q : SD.Player)
    (hq : lookupP (SD.tallyEliminate s1).players pid = some q) :
    q.status = SD.Status.dead ↔
      (∃ q0, lookupP s1.players pid = some q0 ∧
        q0.status = SD.Status.dead) ∨
      (skipVotes (SD.alivePlayers s1) < cntVotes (SD.alivePlayers s1) pid ∧
       ∀ t, t ≠ pid → cntVotes (SD.alivePlayers s1) t <
         cntVotes (SD.alivePlayers s1) pid) := by
  have hspec := votes_usm_spec (SD.alivePlayers s1)
  have heval := tallyEliminate_eval s1
  by_cases hcond : ((SD.findMost (SD.buildVotes (SD.alivePlayers s1)).1).1 ≠ "" ∧
      (SD.findMost (SD.buildVotes (SD.alivePlayers s1)).1).2.2 = false ∧
      (SD.buildVotes (SD.alivePlayers s1)).2 <
        (SD.findMost (SD.buildVotes (SD.alivePlayers s1)).1).2.1)
  · have husm := hspec.1 hcond
    cases hlk : lookupP s1.players
        (SD.findMost (SD.buildVotes (SD.alivePlayers s1)).1).1 with
    | none =>
        rw [(heval.2 hcond).1 hlk] at hq
        constructor
        · intro hd
          exact Or.inl ⟨q, hq, hd⟩
        · rintro (⟨q0, h0, hd⟩ | husmpid)
          · rw [h0] at hq
            injection hq with hq
            rw [← hq]
            exact hd
          · exfalso
            have hid := (hspec.2 pid husmpid).2
            rw [hid] at hlk
            rw [hq] at hlk
            cases hlk
    | some ep =>
        rw [(heval.2 hcond).2 ep hlk] at hq
        dsimp only at hq
        rw [lookupP_setP] at hq
        by_cases hpid : pid = (SD.findMost (SD.buildVotes
            (SD.alivePlayers s1)).1).1
        · rw [if_pos hpid, hlk] at hq
          simp only [Option.map_some'] at hq
          injection hq with hq
          subst hq
          constructor
          · intro _
            refine Or.inr ?_
            rw [hpid]
            exact husm
          · intro _
            rfl
        · rw [if_neg hpid] at hq
          constructor
          · intro hd
            exact Or.inl ⟨q, hq, hd⟩
          · rintro (⟨q0, h0, hd⟩ | husmpid)
            · rw [h0] at hq
              injection hq with hq
              rw [← hq]
              exact hd
            · exfalso
              exact hpid (hspec.2 pid husmpid).2.symm
  · rw [heval.1 hcond] at hq
    constructor
    · intro hd
      exact Or.inl ⟨q, hq, hd⟩
    · rintro (⟨q0, h0, hd⟩ | husmpid)
      · rw [h0] at hq
        injection hq with hq
        rw [← hq]
        exact hd
      · exact absurd (hspec.2 pid husmpid).1 hcond

/-- C2: a vote cast in the voting phase by an alive voter is recorded; when
some alive player has still not voted nothing else happens, and when the
recorded vote completes the tally, a player's status newly becomes `dead`
exactly when that player is the unique holder of the strict maximum of the
per-target vote counts and that maximum strictly exceeds the number of skip
votes — on a tie at the maximum, or when skips reach the maximum, no
player's status changes. -/
theorem castVote_tally_characterization (s : SD.GameState)
    (voterId : String) (targetId : Option String) (voter : SD.Player)
    (hvoter : lookupP s.players voterId = some voter)
    (halive : voter.status = SD.Status.alive)
    (hphase : s.phase = Phase.voting) :
    ((∃ p ∈ SD.alivePlayers (SD.recordVote s voterId voter targetId),
        p.hasVoted = false) →
      SD.castVote s voterId targetId =
        (SD.recordVote s voterId voter targetId, true)) ∧
    ((∀ p ∈ SD.alivePlayers (SD.recordVote s voterId voter targetId),
        p.hasVoted = true) →
      (SD.castVote s voterId targetId).2 = true ∧
      (∀ pid q,
        lookupP (SD.castVote s voterId targetId).1.players pid = some q →
        (q.status = SD.Status.dead ↔
          (∃ q0, lookupP s.players pid = some q0 ∧
            q0.status = SD.Status.dead) ∨
          (skipVotes (SD.alivePlayers
              (SD.recordVote s voterId voter targetId)) <
             cntVotes (SD.alivePlayers
               (SD.recordVote s voterId voter targetId)) pid ∧
           ∀ t, t ≠ pid →
             cntVotes (SD.alivePlayers
                 (SD.recordVote s voterId voter targetId)) t <
               cntVotes (SD.alivePlayers
                 (SD.recordVote s voterId voter targetId)) pid)))) := by
  constructor
  · rintro ⟨p, hp, hnv⟩
    unfold SD.castVote
    rw [hvoter]
    try dsimp only
    rw [if_neg (by simp [halive, hphase])]
    try dsimp only
    rw [if_neg ?_]
    intro hlen
    have heq := (List.filter_sublist _).eq_of_length hlen
    have hall := List.filter_eq_self.mp heq p hp
    rw [hnv] at hall
    cases hall
  · intro hall
    have hcast : SD.castVote s voterId targetId =
        (SD.runTally (SD.recordVote s voterId voter targetId), true) := by
      unfold SD.castVote
      rw [hvoter]
      try dsimp only
      rw [if_neg (by simp [halive, hphase])]
      try dsimp only
      rw [if_pos (by rw [List.filter_eq_self.mpr hall])]
    rw [hcast]
    refine ⟨rfl, ?_⟩
    intro pid q hq
    have hst := runTally_status (SD.recordVote s voterId voter targetId) pid
    rw [hq] at hst
    cases hq' : lookupP (SD.tallyEliminate
        (SD.recordVote s voterId voter targetId)).players pid with
    | none =>
        rw [hq'] at hst
        cases hst
    | some q' =>
        rw [hq'] at hst
        simp only [Option.map_some'] at hst
        injection hst with hst
        have hiff := tallyEliminate_status
          (SD.recordVote s voterId voter targetId) pid q' hq'
        rw [hst, hiff]
        have hrs := recordVote_status s voterId voter targetId hvoter pid
        constructor
        · rintro (hold | husm)
          · left
            rw [← map_status_exists, ← hrs, map_status_exists]
            exact hold
          · exact Or.inr husm
        · rintro (hold | husm)
          · left
            rw [← map_status_exists, hrs, map_status_exists]
            exact hold
          · exact Or.inr husm

/-- A voting session where `p3` and `p4` have both not voted yet. -/
def sdVoting2 : SD.GameState :=
  { id := "g", phase := Phase.voting, host := "p1",
    players := [
      ("p1", sdP "p1" SD.Role.impostor SD.Status.alive 0 3 true (some "p2")),
      ("p2", sdP "p2" SD.Role.crewmate SD.Status.alive 0 3 true (some "p1")),
      ("p3", sdP "p3" SD.Role.crewmate SD.Status.alive 0 3 false none),
      ("p4", sdP "p4" SD.Role.crewmate SD.Status.alive 0 3 false none)] }

/-- Witness for C2: with `p3` still to vote, `p4`'s vote is recorded and
nothing else happens. -/
theorem castVote_tally_characterization_witness :
    SD.castVote sdVoting2 "p4" (some "p1") =
      (SD.recordVote sdVoting2 "p4"
        (sdP "p4" SD.Role.crewmate SD.Status.alive 0 3 false none)
        (some "p1"), true) := by
  have h := castVote_tally_characterization sdVoting2 "p4" (some "p1")
    (sdP "p4" SD.Role.crewmate SD.Status.alive 0 3 false none)
    (by decide) (by decide) (by decide)
  exact h.1 (by decide)

end Spec2Proof
